import Mathlib

/-!
# G4VoxelArray: indexing, crop/merge bookkeeping and rounding

A shallow embedding of `include/G4VoxelArray.hh`.

* `unsigned int` values are natural numbers below `2^32`; every arithmetic
  operation of the source that can wrap is followed by `wrap`.
* `std::vector` is a `List`; `v[i]`, `front()` and `back()` outside the vector,
  a division by zero, and a loop that does not leave within its bound have no
  defined result in C++ and are a `Fault` here.
* `double` and `T` values are taken in exact arithmetic.
-/

namespace G4Voxel

/-! ## Machine model -/

/-- The ways in which a run of the C++ has no defined result. -/
inductive Fault where
  /-- An `operator[]`, `front()` or `back()` outside the vector. -/
  | vectorAccess
  /-- A `/` or `%` with a zero divisor. -/
  | divideByZero
  /-- The loop did not leave within its iteration bound. -/
  | diverges
  /-- A signed integer operation, or a conversion to a signed integer type,
  whose value the type cannot hold. -/
  | overflow
  deriving DecidableEq, Repr

/-- Outcome of running a piece of the source. -/
abbrev Result (α : Type) := Except Fault α

deriving instance DecidableEq for Except

/-- Reduction of a value to `unsigned int` (32 bits). -/
def wrap (n : Nat) : Nat := n % 4294967296

/-- Source: `v[i]` on a `std::vector`. -/
def vget {α : Type} (v : List α) (i : Nat) : Result α :=
  match v[i]? with
  | some a => .ok a
  | none => .error .vectorAccess

/-- Source: `v[i] = a` on a `std::vector`. -/
def vset {α : Type} (v : List α) (i : Nat) (a : α) : Result (List α) :=
  if i < v.length then .ok (v.set i a) else .error .vectorAccess

/-- Source: `v.front()`. -/
def vfront {α : Type} (v : List α) : Result α :=
  match v.head? with
  | some a => .ok a
  | none => .error .vectorAccess

/-- Source: `v.back()`. -/
def vback {α : Type} (v : List α) : Result α :=
  match v.getLast? with
  | some a => .ok a
  | none => .error .vectorAccess

/-- Modelled from the spec: the `Order` enumeration of `G4VoxelData.hh`
(`MajorOrder`: `RowMajor` or `ColumnMajor`), named as the source names its
two values. -/
inductive Order where
  | ROW_MAJOR
  | COLUMN_MAJOR
  deriving DecidableEq, Repr

/-- Modelled from the spec: the fields of the `G4VoxelData` buffer that
`G4VoxelArrayBase::Init` reads (`shape`, `spacing`, `ndims`, `order`,
`length`); the class itself is declared in `G4VoxelData.hh`. -/
structure G4VoxelData where
  length : Nat
  ndims : Nat
  order : Order
  shape : List Nat
  spacing : List ℚ

/-- The data members of `G4VoxelArrayBase` (the `data` pointer apart). -/
structure G4VoxelArrayBase where
  length : Nat
  ndims : Nat
  order : Order
  shape : List Nat
  spacing : List ℚ
  cropped : Bool
  crop_limits : List Nat
  cropped_shape : List Nat
  merged : Bool
  merge_size : List Nat
  merged_shape : List Nat

/-! ## Flattening: `GetIndex` -/

/-- Inner loop of the `ROW_MAJOR` branch:
`for (unsigned int j=0; j<i; j++) offset *= shape[j];`
run from the loop state `(j, offset)`. -/
def rowInner (shape : List Nat) (i : Nat) : Nat → Nat → Nat → Result Nat
  | 0, _, _ => .error .diverges
  | fuel + 1, j, offset =>
    if j < i then do
      let s ← vget shape j
      rowInner shape i fuel (wrap (j + 1)) (wrap (offset * s))
    else .ok offset

/-- Outer loop of the `ROW_MAJOR` branch:
`for (unsigned int i=1; i<indices.size(); i++) { offset = indices[i]; ...; index += offset; }`
run from the loop state `(i, index)`. -/
def rowOuter (indices shape : List Nat) : Nat → Nat → Nat → Result Nat
  | 0, _, _ => .error .diverges
  | fuel + 1, i, index =>
    if i < indices.length then do
      let c ← vget indices i
      let offset ← rowInner shape i (i + 1) 0 c
      rowOuter indices shape fuel (wrap (i + 1)) (wrap (index + offset))
    else .ok index

/-- Inner loop of the `COLUMN_MAJOR` branch:
`for (unsigned int j=indices.size()-1; j>=i+1 && j<indices.size(); j--) offset *= shape[j];`
run from the loop state `(j, offset)`; `n` is `indices.size()`. -/
def colInner (shape : List Nat) (n i : Nat) : Nat → Nat → Nat → Result Nat
  | 0, _, _ => .error .diverges
  | fuel + 1, j, offset =>
    if wrap (i + 1) ≤ j ∧ j < n then do
      let s ← vget shape j
      colInner shape n i fuel (wrap (j + 4294967295)) (wrap (offset * s))
    else .ok offset

/-- Outer loop of the `COLUMN_MAJOR` branch:
`for (unsigned int i=indices.size()-2; i<indices.size(); i--) { offset = indices[i]; ...; index += offset; }`
run from the loop state `(i, index)`. -/
def colOuter (indices shape : List Nat) : Nat → Nat → Nat → Result Nat
  | 0, _, _ => .error .diverges
  | fuel + 1, i, index =>
    if i < indices.length then do
      let c ← vget indices i
      let offset ← colInner shape indices.length i (indices.length + 1)
        (wrap (indices.length + 4294967295)) c
      colOuter indices shape fuel (wrap (i + 4294967295)) (wrap (index + offset))
    else .ok index

/-- Source: `GetIndex(std::vector<unsigned int> indices, std::vector<unsigned int> shape)`.
Each loop gets as many steps as its vector has entries, plus one for the
test that leaves it. -/
def GetIndex (self : G4VoxelArrayBase) (indices shape : List Nat) : Result Nat :=
  match self.order with
  | .ROW_MAJOR => do
    let index ← vfront indices
    rowOuter indices shape (indices.length + 1) 1 index
  | .COLUMN_MAJOR => do
    let index ← vback indices
    colOuter indices shape (indices.length + 1)
      (wrap (indices.length + 4294967294)) index

/-- Source: `GetIndex(unsigned int index)`: a flat index is returned as it is. -/
def GetIndex_flat (_self : G4VoxelArrayBase) (index : Nat) : Nat := index

/-- Source: `GetIndex(unsigned int x, unsigned int y, unsigned int z, std::vector<unsigned int> shape)`. -/
def GetIndex_xyz_shape (self : G4VoxelArrayBase) (x y z : Nat) (shape : List Nat) :
    Result Nat :=
  GetIndex self [x, y, z] shape

/-- Source: `GetIndex(unsigned int x, unsigned int y, unsigned int z)`. -/
def GetIndex_xyz (self : G4VoxelArrayBase) (x y z : Nat) : Result Nat :=
  GetIndex_xyz_shape self x y z self.shape

/-! ## Unflattening: `UnpackIndices` -/

/-- Source: `UnpackIndices(unsigned int index)`. -/
def UnpackIndices (self : G4VoxelArrayBase) (index : Nat) : Result (List Nat) :=
  match self.order with
  | .ROW_MAJOR => do
    let s1 ← vget self.shape 1
    let s2 ← vget self.shape 2
    if wrap (s1 * s2) = 0 then throw .divideByZero
    let x := index / wrap (s1 * s2)
    let sub_index := index % wrap (s1 * s2)
    if s1 = 0 then throw .divideByZero
    let y := sub_index / s1
    let z := sub_index % s1
    pure [x, y, z]
  | .COLUMN_MAJOR => do
    let s0 ← vget self.shape 0
    let s1 ← vget self.shape 1
    if wrap (s0 * s1) = 0 then throw .divideByZero
    let z := index / wrap (s0 * s1)
    let sub_index := index % wrap (s0 * s1)
    if s0 = 0 then throw .divideByZero
    let y := sub_index / s0
    let x := sub_index % s0
    pure [x, y, z]

/-- The round trip `UnpackIndices(GetIndex(x, y, z))`. -/
def unpackOfIndex (self : G4VoxelArrayBase) (x y z : Nat) : Result (List Nat) := do
  let index ← GetIndex_xyz self x y z
  UnpackIndices self index

/-! ## Binding: `Init` -/

/-- Source: `Init()`: reset of the crop and merge bookkeeping from `this->shape`.
`crop_limits` and `merge_size` are extended with `push_back`. -/
def Init (self : G4VoxelArrayBase) : Result G4VoxelArrayBase := do
  let self := { self with cropped_shape := self.shape, order := Order.COLUMN_MAJOR }
  let s0 ← vget self.shape 0
  let s1 ← vget self.shape 1
  let s2 ← vget self.shape 2
  let self := { self with crop_limits := self.crop_limits ++ [0, s0, 0, s1, 0, s2] }
  let self := { self with cropped := false }
  let self := { self with merged_shape := self.shape,
                          merge_size := self.merge_size ++ [1, 1, 1] }
  pure { self with merged := false }

/-- Source: `Init(G4VoxelData* data)`. -/
def Init_data (data : G4VoxelData) (self : G4VoxelArrayBase) : Result G4VoxelArrayBase := do
  let self := { self with shape := data.shape }
  let self ← Init self
  pure { self with length := data.length, ndims := data.ndims,
                   spacing := data.spacing, order := data.order }

/-- An object as the constructor `G4VoxelArrayBase()` leaves it: every vector
is empty (the scalar members are not set by the constructor and are
overwritten by `Init`). -/
def Fresh (self : G4VoxelArrayBase) : Prop :=
  self.shape = [] ∧ self.spacing = [] ∧ self.crop_limits = [] ∧
  self.cropped_shape = [] ∧ self.merge_size = [] ∧ self.merged_shape = []

instance (self : G4VoxelArrayBase) : Decidable (Fresh self) := by
  unfold Fresh; infer_instance

/-- One freshly constructed object. -/
def newBase : G4VoxelArrayBase :=
  { length := 0, ndims := 0, order := .COLUMN_MAJOR, shape := [], spacing := [],
    cropped := false, crop_limits := [], cropped_shape := [],
    merged := false, merge_size := [], merged_shape := [] }

/-! ## Crop -/

/-- Source: `CropAxis(unsigned int imin, unsigned int imax, unsigned int axis)`. -/
def CropAxis (imin imax axis : Nat) (self : G4VoxelArrayBase) : Result G4VoxelArrayBase := do
  let cs ← vset self.cropped_shape axis (wrap (imax + 4294967296 - imin))
  let cl ← vset self.crop_limits (wrap (2 * axis)) imin
  let cl ← vset cl (wrap (wrap (2 * axis) + 1)) imax
  pure { self with cropped_shape := cs, crop_limits := cl, cropped := true }

/-- Source: `CropX(xmin, xmax)`. -/
def CropX (xmin xmax : Nat) (self : G4VoxelArrayBase) : Result G4VoxelArrayBase :=
  CropAxis xmin xmax 0 self

/-- Source: `CropY(ymin, ymax)`. -/
def CropY (ymin ymax : Nat) (self : G4VoxelArrayBase) : Result G4VoxelArrayBase :=
  CropAxis ymin ymax 1 self

/-- Source: `CropZ(zmin, zmax)`. -/
def CropZ (zmin zmax : Nat) (self : G4VoxelArrayBase) : Result G4VoxelArrayBase :=
  CropAxis zmin zmax 2 self

/-- Source: `Crop(xmin, xmax, ymin, ymax, zmin, zmax)`. -/
def Crop (xmin xmax ymin ymax zmin zmax : Nat) (self : G4VoxelArrayBase) :
    Result G4VoxelArrayBase := do
  let self ← CropX xmin xmax self
  let self ← CropY ymin ymax self
  CropZ zmin zmax self

/-- Source: `Crop(bool cropped)`: the crop-active toggle. -/
def Crop_bool (cropped : Bool) (self : G4VoxelArrayBase) : G4VoxelArrayBase :=
  { self with cropped := cropped }

/-- Source: `IsCropped()`. -/
def IsCropped (self : G4VoxelArrayBase) : Bool := self.cropped

/-- Source: `ClearCrop()`. -/
def ClearCrop (self : G4VoxelArrayBase) : Result G4VoxelArrayBase := do
  let s0 ← vget self.shape 0
  let self ← CropX 0 s0 self
  let s1 ← vget self.shape 1
  let self ← CropY 0 s1 self
  let s2 ← vget self.shape 2
  let self ← CropZ 0 s2 self
  pure { self with cropped := false }

/-- Source: `GetCropLimit()`. -/
def GetCropLimit (self : G4VoxelArrayBase) : List Nat := self.crop_limits

/-! ## Merge -/

/-- Source: `MergeAxis(unsigned int size, unsigned int axis)`. The source first
evaluates `cropped_shape[axis] % size != 0` for an empty `if`. -/
def MergeAxis (size axis : Nat) (self : G4VoxelArrayBase) : Result G4VoxelArrayBase := do
  let c ← vget self.cropped_shape axis
  if size = 0 then throw .divideByZero
  let ms ← vset self.merged_shape axis (c / size)
  let mz ← vset self.merge_size axis size
  pure { self with merged_shape := ms, merge_size := mz, merged := true }

/-- Source: `MergeX(size)`. -/
def MergeX (size : Nat) (self : G4VoxelArrayBase) : Result G4VoxelArrayBase :=
  MergeAxis size 0 self

/-- Source: `MergeY(size)`. -/
def MergeY (size : Nat) (self : G4VoxelArrayBase) : Result G4VoxelArrayBase :=
  MergeAxis size 1 self

/-- Source: `MergeZ(size)`. -/
def MergeZ (size : Nat) (self : G4VoxelArrayBase) : Result G4VoxelArrayBase :=
  MergeAxis size 2 self

/-- Source: `Merge(size_x, size_y, size_z)`. -/
def Merge (size_x size_y size_z : Nat) (self : G4VoxelArrayBase) :
    Result G4VoxelArrayBase := do
  let self ← MergeX size_x self
  let self ← MergeY size_y self
  MergeZ size_z self

/-- Source: `IsMerged()`. -/
def IsMerged (self : G4VoxelArrayBase) : Bool := self.merged

/-- Source: `ClearMerge()`. -/
def ClearMerge (self : G4VoxelArrayBase) : Result G4VoxelArrayBase := do
  let self ← MergeX 1 self
  let self ← MergeY 1 self
  let self ← MergeZ 1 self
  pure { self with merged := false }

/-- Source: `GetMergeSize()`. -/
def GetMergeSize (self : G4VoxelArrayBase) : List Nat := self.merge_size

/-- Source: `GetShape()`. -/
def GetShape (self : G4VoxelArrayBase) : List Nat :=
  if self.merged then self.merged_shape else self.cropped_shape

/-! ## Sequences of crop and merge calls -/

/-- The crop and merge calls of the public interface. -/
inductive Op where
  | cropAxis (imin imax axis : Nat)
  | cropX (xmin xmax : Nat)
  | cropY (ymin ymax : Nat)
  | cropZ (zmin zmax : Nat)
  | crop (xmin xmax ymin ymax zmin zmax : Nat)
  | cropBool (cropped : Bool)
  | clearCrop
  | mergeAxis (size axis : Nat)
  | mergeX (size : Nat)
  | mergeY (size : Nat)
  | mergeZ (size : Nat)
  | merge (size_x size_y size_z : Nat)
  | clearMerge
  deriving DecidableEq, Repr

/-- The arguments of a call are `unsigned int` values. -/
def Op.args : Op → List Nat
  | .cropAxis imin imax axis => [imin, imax, axis]
  | .cropX a b => [a, b]
  | .cropY a b => [a, b]
  | .cropZ a b => [a, b]
  | .crop a b c d e f => [a, b, c, d, e, f]
  | .cropBool _ => []
  | .clearCrop => []
  | .mergeAxis size axis => [size, axis]
  | .mergeX k => [k]
  | .mergeY k => [k]
  | .mergeZ k => [k]
  | .merge a b c => [a, b, c]
  | .clearMerge => []

/-- Run one call. -/
def Op.run : Op → G4VoxelArrayBase → Result G4VoxelArrayBase
  | .cropAxis imin imax axis, s => CropAxis imin imax axis s
  | .cropX a b, s => CropX a b s
  | .cropY a b, s => CropY a b s
  | .cropZ a b, s => CropZ a b s
  | .crop a b c d e f, s => Crop a b c d e f s
  | .cropBool b, s => .ok (Crop_bool b s)
  | .clearCrop, s => ClearCrop s
  | .mergeAxis size axis, s => MergeAxis size axis s
  | .mergeX k, s => MergeX k s
  | .mergeY k, s => MergeY k s
  | .mergeZ k, s => MergeZ k s
  | .merge a b c, s => Merge a b c s
  | .clearMerge, s => ClearMerge s

/-- Run a sequence of calls, first to last. -/
def runOps : List Op → G4VoxelArrayBase → Result G4VoxelArrayBase
  | [], s => .ok s
  | op :: ops, s => do
    let s ← op.run s
    runOps ops s

/-- Modelled from the spec: a buffer has three extents (`shape:[uint;3]`),
each an `unsigned int` value. -/
def G4VoxelData.WellFormed (data : G4VoxelData) : Prop :=
  data.shape.length = 3 ∧ ∀ e ∈ data.shape, e < 4294967296

instance (data : G4VoxelData) : Decidable data.WellFormed := by
  unfold G4VoxelData.WellFormed; infer_instance

/-- States of an accessor bound once to `data` and then driven by calls from
`allowed`, with `unsigned int` arguments, each of which has a defined result
(valid axis, non-zero block size). -/
inductive ReachableVia (allowed : Op → Prop) (data : G4VoxelData) :
    G4VoxelArrayBase → Prop where
  | bind (s0 s : G4VoxelArrayBase) :
      Fresh s0 → data.WellFormed → Init_data data s0 = .ok s → ReachableVia allowed data s
  | step (s s1 : G4VoxelArrayBase) (op : Op) :
      ReachableVia allowed data s → allowed op → (∀ a ∈ op.args, a < 4294967296) →
      op.run s = .ok s1 → ReachableVia allowed data s1

/-- States reachable from a fresh bind by any sequence of crop and merge calls. -/
def Reachable (data : G4VoxelData) (s : G4VoxelArrayBase) : Prop :=
  ReachableVia (fun _ => True) data s

/-- The call changes the crop window of axis `a`. -/
def Op.cropsAxis (a : Nat) : Op → Bool
  | .cropAxis _ _ axis => axis = a
  | .cropX _ _ => a = 0
  | .cropY _ _ => a = 1
  | .cropZ _ _ => a = 2
  | .crop _ _ _ _ _ _ => true
  | .clearCrop => true
  | _ => false

/-- The call recomputes the merged extent of axis `a`. -/
def Op.mergesAxis (a : Nat) : Op → Bool
  | .mergeAxis _ axis => axis = a
  | .mergeX _ => a = 0
  | .mergeY _ => a = 1
  | .mergeZ _ => a = 2
  | .merge _ _ _ => true
  | .clearMerge => true
  | _ => false

/-- States reachable from a fresh bind in which the crop window of axis `a`
has not been changed since the bind or since the last call that recomputed
the merged extent of axis `a`. -/
inductive InSync (data : G4VoxelData) (a : Nat) : G4VoxelArrayBase → Prop where
  | bind (s0 s : G4VoxelArrayBase) :
      Fresh s0 → data.WellFormed → Init_data data s0 = .ok s → InSync data a s
  | keep (s s1 : G4VoxelArrayBase) (op : Op) :
      InSync data a s → op.cropsAxis a = false → (∀ x ∈ op.args, x < 4294967296) →
      op.run s = .ok s1 → InSync data a s1
  | remerge (s s1 : G4VoxelArrayBase) (op : Op) :
      Reachable data s → op.mergesAxis a = true → (∀ x ∈ op.args, x < 4294967296) →
      op.run s = .ok s1 → InSync data a s1

/-- What every reachable state keeps: the raw shape of the buffer and the
sizes of the bookkeeping vectors. -/
structure Inv (data : G4VoxelData) (s : G4VoxelArrayBase) : Prop where
  shape_eq : s.shape = data.shape
  shape_len : s.shape.length = 3
  shape_u32 : ∀ e ∈ s.shape, e < 4294967296
  cs_len : s.cropped_shape.length = 3
  ms_len : s.merged_shape.length = 3
  mz_len : s.merge_size.length = 3
  cl_len : s.crop_limits.length = 6

/-- A buffer of shape (2,3,5). -/
def data235 (order : Order) : G4VoxelData :=
  { length := 30, ndims := 3, order := order, shape := [2, 3, 5], spacing := [1, 1, 1] }

/-- The closed form of the claim for `ROW_MAJOR`:
the sum over `i` of `indices[i] * prod_{j<i} shape[j]`. -/
def rowMajorSum (indices shape : List Nat) : Nat :=
  ∑ i in Finset.range indices.length,
    indices.getD i 0 * ∏ j in Finset.range i, shape.getD j 0

/-- The closed form of the claim for `COLUMN_MAJOR`:
the sum over `i` of `indices[i] * prod_{i<j<n} shape[j]`. -/
def colMajorSum (indices shape : List Nat) : Nat :=
  ∑ i in Finset.range indices.length,
    indices.getD i 0 * ∏ j in Finset.Ioo i indices.length, shape.getD j 0

/-- A buffer of shape (10,10,10). -/
def data101010 : G4VoxelData :=
  { length := 1000, ndims := 3, order := .COLUMN_MAJOR, shape := [10, 10, 10],
    spacing := [1, 1, 1] }

/-- An accessor on `data` with the given crop and merge bookkeeping. -/
def viewOf (data : G4VoxelData) (cropped : Bool) (crop_limits cropped_shape : List Nat)
    (merged : Bool) (merge_size merged_shape : List Nat) : G4VoxelArrayBase :=
  { length := data.length, ndims := data.ndims, order := data.order, shape := data.shape,
    spacing := data.spacing, cropped := cropped, crop_limits := crop_limits,
    cropped_shape := cropped_shape, merged := merged, merge_size := merge_size,
    merged_shape := merged_shape }

/-- On axis `a` the merged extent is the cropped extent divided by the block size. -/
def Sync (a : Nat) (s : G4VoxelArrayBase) : Prop :=
  s.merged_shape.getD a 0 = s.cropped_shape.getD a 0 / s.merge_size.getD a 0

/-! ## Value access: `G4VoxelArray<T>` -/

/-- The accessor `G4VoxelArray<T>`: the geometry of its base class and the
elements of the buffer it points to. -/
structure G4VoxelArray (T : Type) where
  base : G4VoxelArrayBase
  array : List T

/-- Source: `GetValue(unsigned int x)`: the element at the flat index `x`. -/
def GetValue {T : Type} (self : G4VoxelArray T) (x : Nat) : Result T :=
  let index := GetIndex_flat self.base x
  vget self.array index

/-- Source: `GetValue(unsigned int x, unsigned int y, unsigned int z)`. -/
def GetValue_xyz {T : Type} (self : G4VoxelArray T) (x y z : Nat) : Result T := do
  let index ← GetIndex_xyz self.base x y z
  GetValue self index

/-- Source: `SetValue(T value, unsigned int x, unsigned int y, unsigned int z)`. -/
def SetValue {T : Type} (value : T) (x y z : Nat) (self : G4VoxelArray T) :
    Result (G4VoxelArray T) := do
  let index ← GetIndex_xyz self.base x y z
  let array ← vset self.array index value
  pure { self with array := array }

/-- The flattening formula of each ordering on three axes, as an
`unsigned int`. -/
def flatIndex (order : Order) (x y z s0 s1 s2 : Nat) : Nat :=
  match order with
  | .ROW_MAJOR => (x + s0 * y + s0 * s1 * z) % 4294967296
  | .COLUMN_MAJOR => (z + s2 * y + s2 * s1 * x) % 4294967296

/-- The `ROW_MAJOR` buffer of shape (2,3,5) holding the values 0, 10, ..., 290,
viewed by an accessor with nothing cropped or merged. -/
def array235 : G4VoxelArray Int :=
  { base := viewOf (data235 .ROW_MAJOR) false [0, 2, 0, 3, 0, 5] [2, 3, 5] false [1, 1, 1]
      [2, 3, 5],
    array := (List.range 30).map fun i => 10 * (i : Int) }

/-! ## Quantisation: `RoundValue` -/

/-- Source: `RoundValue(T val, T rounder)` for a real-valued `T`, in exact arithmetic. -/
def RoundValue {T : Type} [LinearOrderedField T] [FloorRing T] (val rounder : T) : T :=
  if val > 0 then
    (⌊(val + rounder / 2) / rounder⌋ : T) * rounder
  else
    (⌊(val - rounder / 2) / rounder⌋ : T) * rounder

/-- The value of `RoundValue(T val, T rounder)` for a signed-integer `T` in exact
integer arithmetic: both `/` truncate toward zero and no range is applied. It
is what a run of the code returns when that run is defined
(`RoundValue_signed`, `RoundValue_signed_value`); it says nothing about a run
that overflows or divides by zero. -/
def RoundValue_int (val rounder : Int) : Int :=
  if val > 0 then
    Int.tdiv (val + Int.tdiv rounder 2) rounder * rounder
  else
    Int.tdiv (val - Int.tdiv rounder 2) rounder * rounder

/-- The values of a signed integer type of `bits` bits. -/
def inRange (bits : Nat) (n : Int) : Prop :=
  -((2 ^ (bits - 1) : Nat) : Int) ≤ n ∧ n < ((2 ^ (bits - 1) : Nat) : Int)

instance (bits : Nat) (n : Int) : Decidable (inRange bits n) := by
  unfold inRange; infer_instance

/-- The result of an `int` operation (`int` of 32 bits, as `unsigned int` is
throughout): its value when `int` holds it. -/
def intResult (n : Int) : Result Int :=
  if inRange 32 n then .ok n else .error .overflow

/-- Source: `RoundValue(T val, T rounder)` run for a signed-integer `T` of `bits`
bits, `bits <= 32`. The operands are promoted to `int`: `rounder/2`, the sum or
difference and the quotient are `int` operations, the divisions truncating
toward zero. `floor` takes the quotient as a `double`, which holds every `int`
exactly; the product with `rounder` is a `double`, exact whenever it is a
value of `T`, and is converted to `T`, which is defined only for a value `T`
holds. -/
def RoundValue_signed (bits : Nat) (val rounder : Int) : Result Int := do
  let half := Int.tdiv rounder 2
  let sum ← intResult (if val > 0 then val + half else val - half)
  if rounder = 0 then throw .divideByZero
  let quotient ← intResult (Int.tdiv sum rounder)
  if inRange bits (quotient * rounder) then pure (quotient * rounder)
  else throw .overflow

/-! ## Clamped quantisation -/

/-- Source: `RoundValue(T val, T lower, T upper, T rounder)` for a real-valued `T`. -/
def RoundValue_bounded {T : Type} [LinearOrderedField T] [FloorRing T]
    (val lower upper rounder : T) : T :=
  let val := RoundValue val rounder
  let val := if val < lower then lower else val
  let val := if val > upper then upper else val
  val

/-- Source: `RoundValue(T val, T lower, T upper, T rounder)` for a signed-integer `T`. -/
def RoundValue_int_bounded (val lower upper rounder : Int) : Int :=
  let val := RoundValue_int val rounder
  let val := if val < lower then lower else val
  let val := if val > upper then upper else val
  val

/-! ## Reductions: `GetMaxValue`, `GetMinValue` -/

/-- The scan of `std::max_element` from the element after the first: the
position moves to a later element only when that element is strictly larger. -/
def max_element {T : Type} [LinearOrder T] : T → List T → T
  | largest, [] => largest
  | largest, x :: xs => if largest < x then max_element x xs else max_element largest xs

/-- The scan of `std::min_element` from the element after the first: the
position moves to a later element only when that element is strictly smaller. -/
def min_element {T : Type} [LinearOrder T] : T → List T → T
  | smallest, [] => smallest
  | smallest, x :: xs => if x < smallest then min_element x xs else min_element smallest xs

/-- Source: `GetMaxValue()`: `*std::max_element(array->begin(), array->end())`; on an
empty buffer the iterator returned is `end()`, outside the vector. -/
def GetMaxValue {T : Type} [LinearOrder T] (self : G4VoxelArray T) : Result T :=
  match self.array with
  | [] => .error .vectorAccess
  | x :: xs => .ok (max_element x xs)

/-- Source: `GetMinValue()`: `*std::min_element(array->begin(), array->end())`. -/
def GetMinValue {T : Type} [LinearOrder T] (self : G4VoxelArray T) : Result T :=
  match self.array with
  | [] => .error .vectorAccess
  | x :: xs => .ok (min_element x xs)

/-! ## Positions -/

/-- Source: `GetPosition(unsigned int index, unsigned int shape, double spacing)`, in
exact arithmetic (`shape/2.` is a division of reals). -/
def GetPosition (index shape : Nat) (spacing : ℚ) : ℚ :=
  ((index : ℚ) * spacing) - ((shape : ℚ) / 2 * spacing)

/-- The loop of `GetPosition(std::vector<unsigned int> indices)`:
`for (unsigned int i=0; i<indices.size(); i++) position.push_back(GetPosition(indices[i], this->shape[i], (double) this->spacing[i]));`
run from the loop state `(i, position)`. -/
def positionLoop (self : G4VoxelArrayBase) (indices : List Nat) :
    Nat → Nat → List ℚ → Result (List ℚ)
  | 0, _, _ => .error .diverges
  | fuel + 1, i, position =>
    if i < indices.length then do
      let c ← vget indices i
      let sh ← vget self.shape i
      let sp ← vget self.spacing i
      positionLoop self indices fuel (wrap (i + 1)) (position ++ [GetPosition c sh sp])
    else .ok position

/-- Source: `GetPosition(std::vector<unsigned int> indices)`. -/
def GetPosition_vec (self : G4VoxelArrayBase) (indices : List Nat) : Result (List ℚ) :=
  positionLoop self indices (indices.length + 1) 0 []

/-- Source: `GetPosition(unsigned int x, unsigned int y, unsigned int z)`. -/
def GetPosition_xyz (self : G4VoxelArrayBase) (x y z : Nat) : Result (List ℚ) :=
  GetPosition_vec self [x, y, z]

/-- Source: `GetPositionX(unsigned int x)`. -/
def GetPositionX (self : G4VoxelArrayBase) (x : Nat) : Result ℚ := do
  let sh ← vget self.shape 0
  let sp ← vget self.spacing 0
  pure (GetPosition x sh sp)

/-- Source: `GetPositionY(unsigned int y)`. -/
def GetPositionY (self : G4VoxelArrayBase) (y : Nat) : Result ℚ := do
  let sh ← vget self.shape 1
  let sp ← vget self.spacing 1
  pure (GetPosition y sh sp)

/-- Source: `GetPositionZ(unsigned int z)`. -/
def GetPositionZ (self : G4VoxelArrayBase) (z : Nat) : Result ℚ := do
  let sh ← vget self.shape 2
  let sp ← vget self.spacing 2
  pure (GetPosition z sh sp)

/-! ## Reported spacing -/

/-- The loop of `GetSpacing()` under merge:
`for (unsigned int i=0; i<this->ndims; i++) spacing.push_back(this->spacing[i] * this->merge_size[i]);`
run from the loop state `(i, spacing)`. -/
def spacingLoop (self : G4VoxelArrayBase) : Nat → Nat → List ℚ → Result (List ℚ)
  | 0, _, _ => .error .diverges
  | fuel + 1, i, spacing =>
    if i < self.ndims then do
      let sp ← vget self.spacing i
      let k ← vget self.merge_size i
      spacingLoop self fuel (wrap (i + 1)) (spacing ++ [sp * (k : ℚ)])
    else .ok spacing

/-- Source: `GetSpacing()`. -/
def GetSpacing (self : G4VoxelArrayBase) : Result (List ℚ) :=
  if self.merged then spacingLoop self (self.ndims + 1) 0 []
  else .ok self.spacing

/-- Source: `GetVoxelSize()`; the three components of the `G4ThreeVector`. -/
def GetVoxelSize (self : G4VoxelArrayBase) : Result (ℚ × ℚ × ℚ) :=
  if self.merged then do
    let k0 ← vget self.merge_size 0
    let p0 ← vget self.spacing 0
    let k1 ← vget self.merge_size 1
    let p1 ← vget self.spacing 1
    let k2 ← vget self.merge_size 2
    let p2 ← vget self.spacing 2
    pure ((k0 : ℚ) * p0 / 2, (k1 : ℚ) * p1 / 2, (k2 : ℚ) * p2 / 2)
  else do
    let p0 ← vget self.spacing 0
    let p1 ← vget self.spacing 1
    let p2 ← vget self.spacing 2
    pure (p0 / 2, p1 / 2, p2 / 2)

/-! ## Rebinding and calls on the accessor -/

/-- Source: `SetData(G4VoxelData* data)`: `Init(data)` and the array pointer set to
the buffer's storage, whose elements read as `T` are `elements`. -/
def SetData {T : Type} (data : G4VoxelData) (elements : List T) (self : G4VoxelArray T) :
    Result (G4VoxelArray T) := do
  let base ← Init_data data self.base
  pure { base := base, array := elements }

/-- A sequence of crop and merge calls made on the accessor: they are members
of the base class and are handed only its data members. -/
def G4VoxelArray.runOps {T : Type} (ops : List Op) (self : G4VoxelArray T) :
    Result (G4VoxelArray T) := do
  let base ← G4Voxel.runOps ops self.base
  pure { self with base := base }

/-- A buffer of shape (5,1,1). -/
def data511 : G4VoxelData :=
  { length := 5, ndims := 3, order := .ROW_MAJOR, shape := [5, 1, 1], spacing := [1, 1, 1] }

/-- The buffer [1,5,2,9,0] of shape (5,1,1) under an accessor whose crop window
on `x` is [1,3). -/
def cropped511 : G4VoxelArray Int :=
  { base := viewOf data511 true [1, 3, 0, 1, 0, 1] [2, 1, 1] false [1, 1, 1] [5, 1, 1],
    array := [1, 5, 2, 9, 0] }

/-! ## `GetIndex` without wraparound -/

/-- The inner `ROW_MAJOR` loop of `GetIndex` in which a product that does not
fit in 32 bits is not reduced: the run ends with `none`. -/
def rowInnerExact (shape : List Nat) (i : Nat) : Nat → Nat → Nat → Option Nat
  | 0, _, _ => none
  | fuel + 1, j, offset =>
    if j < i then
      match shape[j]? with
      | some s =>
        if offset * s < 4294967296 then rowInnerExact shape i fuel (wrap (j + 1)) (offset * s)
        else none
      | none => none
    else some offset

/-- The outer `ROW_MAJOR` loop of `GetIndex` in which a product or sum that
does not fit in 32 bits ends the run with `none`. -/
def rowOuterExact (indices shape : List Nat) : Nat → Nat → Nat → Option Nat
  | 0, _, _ => none
  | fuel + 1, i, index =>
    if i < indices.length then
      match indices[i]? with
      | some c =>
        match rowInnerExact shape i (i + 1) 0 c with
        | some offset =>
          if index + offset < 4294967296 then
            rowOuterExact indices shape fuel (wrap (i + 1)) (index + offset)
          else none
        | none => none
      | none => none
    else some index

/-- The inner `COLUMN_MAJOR` loop of `GetIndex` in which a product that does
not fit in 32 bits ends the run with `none`. -/
def colInnerExact (shape : List Nat) (n i : Nat) : Nat → Nat → Nat → Option Nat
  | 0, _, _ => none
  | fuel + 1, j, offset =>
    if wrap (i + 1) ≤ j ∧ j < n then
      match shape[j]? with
      | some s =>
        if offset * s < 4294967296 then
          colInnerExact shape n i fuel (wrap (j + 4294967295)) (offset * s)
        else none
      | none => none
    else some offset

/-- The outer `COLUMN_MAJOR` loop of `GetIndex` in which a product or sum that
does not fit in 32 bits ends the run with `none`. -/
def colOuterExact (indices shape : List Nat) : Nat → Nat → Nat → Option Nat
  | 0, _, _ => none
  | fuel + 1, i, index =>
    if i < indices.length then
      match indices[i]? with
      | some c =>
        match colInnerExact shape indices.length i (indices.length + 1)
            (wrap (indices.length + 4294967295)) c with
        | some offset =>
          if index + offset < 4294967296 then
            colOuterExact indices shape fuel (wrap (i + 4294967295)) (index + offset)
          else none
        | none => none
      | none => none
    else some index

/-- The run of `GetIndex(indices, shape)` with no 32-bit wraparound: `some index`
when every product and sum the loops compute fits in 32 bits, and `none`
otherwise (or when the run has no defined result). -/
def GetIndexExact (self : G4VoxelArrayBase) (indices shape : List Nat) : Option Nat :=
  match self.order with
  | .ROW_MAJOR =>
    match indices.head? with
    | some index => rowOuterExact indices shape (indices.length + 1) 1 index
    | none => none
  | .COLUMN_MAJOR =>
    match indices.getLast? with
    | some index =>
      colOuterExact indices shape (indices.length + 1)
        (wrap (indices.length + 4294967294)) index
    | none => none

/-- The flat index of an in-range cell on three axes, as a natural number
(no reduction): the formula of each ordering. -/
def cellIndex (order : Order) (x y z s0 s1 s2 : Nat) : Nat :=
  match order with
  | .ROW_MAJOR => x + s0 * y + s0 * s1 * z
  | .COLUMN_MAJOR => z + s2 * y + s2 * s1 * x

/-- The members that crop and merge calls are claimed not to touch agree in two
states: raw shape, raw spacing, storage order, byte length and dimension. -/
def RawEq (s1 s : G4VoxelArrayBase) : Prop :=
  s1.shape = s.shape ∧ s1.spacing = s.spacing ∧ s1.order = s.order ∧
  s1.length = s.length ∧ s1.ndims = s.ndims

/-- Source: `SetShape(std::vector<unsigned int> shape)`. -/
def SetShape (shape : List Nat) (self : G4VoxelArrayBase) : G4VoxelArrayBase :=
  { self with shape := shape }

/-- An accessor whose shape has been set to (65536, 65537, 1), stored
`COLUMN_MAJOR`: the product of the first two extents does not fit in 32 bits. -/
def wideView : G4VoxelArrayBase :=
  SetShape [65536, 65537, 1]
    (viewOf (data235 .COLUMN_MAJOR) false [0, 2, 0, 3, 0, 5] [2, 3, 5] false [1, 1, 1]
      [2, 3, 5])

/-- An accessor object that has not been bound, holding no elements. -/
def newArray : G4VoxelArray Int := { base := newBase, array := [] }

/-! ## Rounded access and the complex specialisation -/

/-- Source: `GetRoundedValue(unsigned int x, T rounder)` of `G4VoxelArray<T>`. -/
def GetRoundedValue {T : Type} [LinearOrderedField T] [FloorRing T]
    (self : G4VoxelArray T) (x : Nat) (rounder : T) : Result T := do
  let val ← GetValue self x
  pure (RoundValue val rounder)

/-- Source: `GetRoundedValue(unsigned int x, T lower, T upper, T rounder)` of
`G4VoxelArray<T>`. -/
def GetRoundedValue_bounded {T : Type} [LinearOrderedField T] [FloorRing T]
    (self : G4VoxelArray T) (x : Nat) (lower upper rounder : T) : Result T := do
  let val ← GetValue self x
  pure (RoundValue_bounded val lower upper rounder)

/-- The specialisation `G4VoxelArray<std::complex<T>>`: the geometry of its base
class and the complex elements of the buffer, each a pair of its real and
imaginary part. -/
structure G4VoxelArrayComplex (T : Type) where
  base : G4VoxelArrayBase
  array : List (T × T)

/-- Source: `GetValue(unsigned int x)` of the complex specialisation: the real part
of the element at the flat index `x`. -/
def G4VoxelArrayComplex.GetValue {T : Type} (self : G4VoxelArrayComplex T) (x : Nat) :
    Result T := do
  let index := GetIndex_flat self.base x
  let element ← vget self.array index
  pure element.1

/-- Source: `GetRoundedValue(unsigned int x, std::complex<T> rounder)` of the complex
specialisation, in exact arithmetic. -/
def G4VoxelArrayComplex.GetRoundedValue {T : Type} [LinearOrderedField T] [FloorRing T]
    (self : G4VoxelArrayComplex T) (x : Nat) (rounder : T × T) : Result T := do
  let val ← self.GetValue x
  let rounder_ := rounder.1
  if val < 0 then
    pure ((⌊(val - rounder_ / 2) / rounder_⌋ : T) * rounder_)
  else
    pure ((⌊(val + rounder_ / 2) / rounder_⌋ : T) * rounder_)

/-- Source: `GetRoundedValue(unsigned int x, std::complex<T> lower, std::complex<T> upper, std::complex<T> rounder)`
of the complex specialisation. -/
def G4VoxelArrayComplex.GetRoundedValue_bounded {T : Type} [LinearOrderedField T]
    [FloorRing T] (self : G4VoxelArrayComplex T) (x : Nat) (lower upper rounder : T × T) :
    Result T := do
  let val ← self.GetRoundedValue x rounder
  let val := if val < lower.1 then lower.1 else val
  let val := if val > upper.1 then upper.1 else val
  pure val

/-- A buffer of shape (1,1,1). -/
def data111 : G4VoxelData :=
  { length := 1, ndims := 3, order := .ROW_MAJOR, shape := [1, 1, 1], spacing := [1, 1, 1] }

/-- A real buffer holding the single value 0, under an accessor bound to
shape (1,1,1). -/
def zeroReal : G4VoxelArray ℚ :=
  { base := viewOf data111 false [0, 1, 0, 1, 0, 1] [1, 1, 1] false [1, 1, 1] [1, 1, 1],
    array := [0] }

/-- A complex buffer holding the single element `0 + 4i`, under an accessor
bound to shape (1,1,1). -/
def zeroComplex : G4VoxelArrayComplex ℚ :=
  { base := viewOf data111 false [0, 1, 0, 1, 0, 1] [1, 1, 1] false [1, 1, 1] [1, 1, 1],
    array := [(0, 4)] }

/-- The accessor bound to `data` from a freshly constructed object. -/
def bound (data : G4VoxelData) : Result G4VoxelArrayBase := Init_data data newBase

/-! ## Lemmas on the machine model -/

theorem wrap_lt (n : Nat) : wrap n < 4294967296 := by
  unfold wrap; omega

theorem wrap_of_lt {n : Nat} (h : n < 4294967296) : wrap n = n := by
  unfold wrap; omega

theorem wrap_pred {n : Nat} (h0 : 0 < n) (h : n < 4294967296) :
    wrap (n + 4294967295) = n - 1 := by
  unfold wrap; omega

theorem wrap_add_wrap (a b : Nat) : wrap (a + wrap b) = wrap (a + b) := by
  unfold wrap; omega

theorem wrap_wrap_mul (a b : Nat) : wrap (wrap a * b) = wrap (a * b) := by
  unfold wrap; exact Nat.mod_mul_mod

theorem wrap_mul_wrap (a b : Nat) : wrap (a * wrap b) = wrap (a * b) := by
  unfold wrap; exact Nat.mul_mod_mod _ _ _

theorem ok_wrap_congr {a b : Nat} (h : a % 4294967296 = b % 4294967296) :
    (Except.ok (wrap a) : Result Nat) = .ok (wrap b) := by
  unfold wrap; rw [h]

theorem vget_of_lt {v : List Nat} {i : Nat} (h : i < v.length) :
    vget v i = .ok (v.getD i 0) := by
  unfold vget
  rw [List.getElem?_eq_getElem h, List.getD_eq_getElem v 0 h]

theorem vfront_of_pos {v : List Nat} (h : 0 < v.length) :
    vfront v = .ok (v.getD 0 0) := by
  cases v with
  | nil => simp at h
  | cons a t => simp [vfront]

theorem vback_of_pos {v : List Nat} (h : 0 < v.length) :
    vback v = .ok (v.getD (v.length - 1) 0) := by
  unfold vback
  have hne : v ≠ [] := by
    intro h0; simp [h0] at h
  rw [List.getLast?_eq_getLast v hne, List.getLast_eq_getElem,
    List.getD_eq_getElem v 0 (Nat.sub_lt h Nat.one_pos)]

theorem getD_lt_of_forall {v : List Nat} (h : ∀ c ∈ v, c < 4294967296) (i : Nat) :
    v.getD i 0 < 4294967296 := by
  by_cases hi : i < v.length
  · rw [List.getD_eq_getElem v 0 hi]
    exact h _ (List.getElem_mem hi)
  · rw [List.getD_eq_default v 0 (by omega)]
    decide

/-! ## The loops of `GetIndex` -/

theorem rowInner_eq (shape : List Nat) (i : Nat) (hi : i ≤ shape.length)
    (hi32 : i < 4294967296) :
    ∀ (d j offset fuel : Nat), j + d = i → offset < 4294967296 → d < fuel →
      rowInner shape i fuel j offset
        = .ok (wrap (offset * ∏ k in Finset.Ico j i, shape.getD k 0)) := by
  intro d
  induction d with
  | zero =>
    intro j offset fuel hj ho hf
    obtain ⟨f, rfl⟩ : ∃ f, fuel = f + 1 := ⟨fuel - 1, by omega⟩
    have hji : j = i := by omega
    subst hji
    simp [rowInner, wrap_of_lt ho]
  | succ d ih =>
    intro j offset fuel hj ho hf
    obtain ⟨f, rfl⟩ : ∃ f, fuel = f + 1 := ⟨fuel - 1, by omega⟩
    have hlt : j < i := by omega
    have hs : vget shape j = .ok (shape.getD j 0) := vget_of_lt (by omega)
    have hw : wrap (j + 1) = j + 1 := wrap_of_lt (by omega)
    have step : rowInner shape i (f + 1) j offset
        = rowInner shape i f (j + 1) (wrap (offset * shape.getD j 0)) := by
      rw [rowInner, if_pos hlt, hs, hw]
      rfl
    rw [step, ih (j + 1) _ f (by omega) (wrap_lt _) (by omega),
      Finset.prod_eq_prod_Ico_succ_bot hlt, wrap_wrap_mul, Nat.mul_assoc]

theorem rowOuter_eq (indices shape : List Nat)
    (hn : indices.length ≤ shape.length) (hn32 : indices.length < 4294967296)
    (hc : ∀ c ∈ indices, c < 4294967296) :
    ∀ (d i index fuel : Nat), i + d = indices.length → index < 4294967296 → d < fuel →
      rowOuter indices shape fuel i index
        = .ok (wrap (index + ∑ k in Finset.Ico i indices.length,
            indices.getD k 0 * ∏ j in Finset.range k, shape.getD j 0)) := by
  intro d
  induction d with
  | zero =>
    intro i index fuel hi ho hf
    obtain ⟨f, rfl⟩ : ∃ f, fuel = f + 1 := ⟨fuel - 1, by omega⟩
    have hin : i = indices.length := by omega
    subst hin
    simp [rowOuter, wrap_of_lt ho]
  | succ d ih =>
    intro i index fuel hi ho hf
    obtain ⟨f, rfl⟩ : ∃ f, fuel = f + 1 := ⟨fuel - 1, by omega⟩
    have hlt : i < indices.length := by omega
    have hci : vget indices i = .ok (indices.getD i 0) := vget_of_lt hlt
    have hw : wrap (i + 1) = i + 1 := wrap_of_lt (by omega)
    have hin := rowInner_eq shape i (by omega) (by omega) i 0 (indices.getD i 0) (i + 1)
      (by omega) (getD_lt_of_forall hc i) (by omega)
    have step : rowOuter indices shape (f + 1) i index
        = rowOuter indices shape f (i + 1)
            (wrap (index + wrap (indices.getD i 0 * ∏ k in Finset.Ico 0 i, shape.getD k 0))) := by
      rw [rowOuter, if_pos hlt, hci, hw]
      show (rowInner shape i (i + 1) 0 (indices.getD i 0) >>= _) = _
      rw [hin]
      rfl
    rw [step, ih (i + 1) _ f (by omega) (wrap_lt _) (by omega),
      Finset.sum_eq_sum_Ico_succ_bot hlt, wrap_add_wrap, ← Finset.range_eq_Ico]
    congr 1
    unfold wrap
    omega

theorem colInner_eq (shape : List Nat) (n i : Nat) (hn : n ≤ shape.length)
    (hn32 : n < 4294967296) :
    ∀ (d j offset fuel : Nat), j = i + d → j < n → offset < 4294967296 → d < fuel →
      colInner shape n i fuel j offset
        = .ok (wrap (offset * ∏ k in Finset.Ioc i j, shape.getD k 0)) := by
  intro d
  induction d with
  | zero =>
    intro j offset fuel hj hjn ho hf
    obtain ⟨f, rfl⟩ : ∃ f, fuel = f + 1 := ⟨fuel - 1, by omega⟩
    have hji : j = i := by omega
    subst hji
    have hw : wrap (j + 1) = j + 1 := wrap_of_lt (by omega)
    have hcond : ¬ (wrap (j + 1) ≤ j ∧ j < n) := by
      rw [hw]; omega
    rw [colInner, if_neg hcond]
    simp [wrap_of_lt ho]
  | succ d ih =>
    intro j offset fuel hj hjn ho hf
    obtain ⟨f, rfl⟩ : ∃ f, fuel = f + 1 := ⟨fuel - 1, by omega⟩
    have hw : wrap (i + 1) = i + 1 := wrap_of_lt (by omega)
    have hcond : wrap (i + 1) ≤ j ∧ j < n := by
      rw [hw]; omega
    have hs : vget shape j = .ok (shape.getD j 0) := vget_of_lt (by omega)
    have hp : wrap (j + 4294967295) = i + d := by
      rw [wrap_pred (by omega) (by omega)]; omega
    have step : colInner shape n i (f + 1) j offset
        = colInner shape n i f (i + d) (wrap (offset * shape.getD j 0)) := by
      rw [colInner, if_pos hcond, hs, hp]
      rfl
    have hprod : ∏ k in Finset.Ioc i j, shape.getD k 0
        = (∏ k in Finset.Ioc i (i + d), shape.getD k 0) * shape.getD j 0 := by
      subst hj
      exact Finset.prod_Ioc_succ_top (Nat.le_add_right i d) _
    rw [step, ih (i + d) _ f rfl (by omega) (wrap_lt _) (by omega), hprod, wrap_wrap_mul]
    have hre : offset * shape.getD j 0 * ∏ k in Finset.Ioc i (i + d), shape.getD k 0
        = offset * ((∏ k in Finset.Ioc i (i + d), shape.getD k 0) * shape.getD j 0) := by
      ring
    rw [hre]

theorem Ioc_pred_eq_Ioo (i n : Nat) (hn : 0 < n) : Finset.Ioc i (n - 1) = Finset.Ioo i n := by
  ext k
  simp only [Finset.mem_Ioc, Finset.mem_Ioo]
  omega

theorem colOuter_eq (indices shape : List Nat)
    (hn : indices.length ≤ shape.length) (hn32 : indices.length < 4294967296)
    (hc : ∀ c ∈ indices, c < 4294967296) :
    ∀ (m index fuel : Nat), m < indices.length → index < 4294967296 → m < fuel →
      colOuter indices shape fuel (wrap (m + 4294967295)) index
        = .ok (wrap (index + ∑ k in Finset.range m,
            indices.getD k 0 * ∏ j in Finset.Ioo k indices.length, shape.getD j 0)) := by
  intro m
  induction m with
  | zero =>
    intro index fuel hm ho hf
    obtain ⟨f, rfl⟩ : ∃ f, fuel = f + 1 := ⟨fuel - 1, by omega⟩
    have hw : wrap (0 + 4294967295) = 4294967295 := by decide
    have hcond : ¬ (4294967295 < indices.length) := by omega
    rw [hw, colOuter, if_neg hcond]
    simp [wrap_of_lt ho]
  | succ m ih =>
    intro index fuel hm ho hf
    obtain ⟨f, rfl⟩ : ∃ f, fuel = f + 1 := ⟨fuel - 1, by omega⟩
    have hw : wrap (m + 1 + 4294967295) = m := by
      unfold wrap; omega
    have hlt : m < indices.length := by omega
    have hci : vget indices m = .ok (indices.getD m 0) := vget_of_lt hlt
    have hj0 : wrap (indices.length + 4294967295) = indices.length - 1 :=
      wrap_pred (by omega) hn32
    have hin := colInner_eq shape indices.length m hn hn32 (indices.length - 1 - m)
      (indices.length - 1) (indices.getD m 0) (indices.length + 1)
      (by omega) (by omega) (getD_lt_of_forall hc m) (by omega)
    rw [Ioc_pred_eq_Ioo m indices.length (by omega)] at hin
    have step : colOuter indices shape (f + 1) m index
        = colOuter indices shape f (wrap (m + 4294967295))
            (wrap (index + wrap (indices.getD m 0
              * ∏ k in Finset.Ioo m indices.length, shape.getD k 0))) := by
      rw [colOuter, if_pos hlt, hci, hj0]
      show (colInner shape indices.length m (indices.length + 1) (indices.length - 1)
        (indices.getD m 0) >>= _) = _
      rw [hin]
      rfl
    rw [hw, step, ih _ f (by omega) (wrap_lt _) (by omega), Finset.sum_range_succ,
      wrap_add_wrap]
    apply ok_wrap_congr
    unfold wrap
    omega

/-- Under `ROW_MAJOR`, `GetIndex` returns the closed form, reduced to 32 bits. -/
theorem GetIndex_row (self : G4VoxelArrayBase) (indices shape : List Nat)
    (ho : self.order = .ROW_MAJOR)
    (h1 : 1 ≤ indices.length) (hn : indices.length ≤ shape.length)
    (hn32 : indices.length < 4294967296) (hc : ∀ c ∈ indices, c < 4294967296) :
    GetIndex self indices shape = .ok (rowMajorSum indices shape % 4294967296) := by
  unfold GetIndex
  rw [ho]
  show (vfront indices >>= _) = _
  rw [vfront_of_pos h1]
  show rowOuter indices shape (indices.length + 1) 1 (indices.getD 0 0) = _
  rw [rowOuter_eq indices shape hn hn32 hc (indices.length - 1) 1 _ _ (by omega)
    (getD_lt_of_forall hc 0) (by omega)]
  unfold rowMajorSum wrap
  rw [Finset.range_eq_Ico, Finset.sum_eq_sum_Ico_succ_bot (by omega : 0 < indices.length)]
  simp

/-- Under `COLUMN_MAJOR`, `GetIndex` returns the closed form, reduced to 32 bits. -/
theorem GetIndex_col (self : G4VoxelArrayBase) (indices shape : List Nat)
    (ho : self.order = .COLUMN_MAJOR)
    (h1 : 1 ≤ indices.length) (hn : indices.length ≤ shape.length)
    (hn32 : indices.length < 4294967296) (hc : ∀ c ∈ indices, c < 4294967296) :
    GetIndex self indices shape = .ok (colMajorSum indices shape % 4294967296) := by
  unfold GetIndex
  rw [ho]
  show (vback indices >>= _) = _
  rw [vback_of_pos h1]
  show colOuter indices shape (indices.length + 1) (wrap (indices.length + 4294967294))
    (indices.getD (indices.length - 1) 0) = _
  have hi : indices.length + 4294967294 = (indices.length - 1) + 4294967295 := by omega
  rw [hi, colOuter_eq indices shape hn hn32 hc (indices.length - 1) _ _ (by omega)
    (getD_lt_of_forall hc _) (by omega)]
  unfold colMajorSum wrap
  have hl : indices.length = (indices.length - 1) + 1 := by omega
  conv_rhs => rw [hl, Finset.sum_range_succ]
  have hempty : Finset.Ioo (indices.length - 1) (indices.length - 1 + 1) = ∅ := by
    ext k; simp only [Finset.mem_Ioo, Finset.not_mem_empty, iff_false]; omega
  rw [hempty, ← hl]
  simp [Nat.add_comm]

theorem rowMajorSum_three (c0 c1 c2 s0 s1 s2 : Nat) :
    rowMajorSum [c0, c1, c2] [s0, s1, s2] = c0 + s0 * c1 + s0 * s1 * c2 := by
  simp [rowMajorSum, Finset.sum_range_succ, Finset.prod_range_succ]
  ring

theorem colMajorSum_three (c0 c1 c2 s0 s1 s2 : Nat) :
    colMajorSum [c0, c1, c2] [s0, s1, s2] = c2 + s2 * c1 + s2 * s1 * c0 := by
  have h0 : Finset.Ioo 0 3 = {1, 2} := by decide
  have h1 : Finset.Ioo 1 3 = {2} := by decide
  have h2 : Finset.Ioo 2 3 = ∅ := by decide
  simp [colMajorSum, Finset.sum_range_succ, h0, h1, h2]
  ring

/-- On three coordinates `GetIndex` returns the three-axis formula of the order. -/
theorem GetIndex_three (self : G4VoxelArrayBase) (c0 c1 c2 s0 s1 s2 : Nat)
    (h0 : c0 < 4294967296) (h1 : c1 < 4294967296) (h2 : c2 < 4294967296) :
    GetIndex self [c0, c1, c2] [s0, s1, s2]
      = .ok (flatIndex self.order c0 c1 c2 s0 s1 s2) := by
  have hc : ∀ c ∈ [c0, c1, c2], c < 4294967296 := by
    intro c hmem
    simp only [List.mem_cons, List.mem_singleton, List.not_mem_nil, or_false] at hmem
    rcases hmem with rfl | rfl | rfl <;> assumption
  cases ho : self.order with
  | ROW_MAJOR =>
    rw [GetIndex_row self _ _ ho (by simp) (by simp) (by simp) hc, rowMajorSum_three]
    rfl
  | COLUMN_MAJOR =>
    rw [GetIndex_col self _ _ ho (by simp) (by simp) (by simp) hc, colMajorSum_three]
    rfl

/-! ## The crop and merge calls on a bound accessor -/

theorem bind_ok {α β : Type} {x : Result α} {f : α → Result β} {b : β}
    (h : (x >>= f) = .ok b) : ∃ a, x = .ok a ∧ f a = .ok b := by
  cases x with
  | error e => cases h
  | ok a => exact ⟨a, rfl, h⟩

theorem CropAxis_eq {imin imax axis : Nat} {s : G4VoxelArrayBase} (hax : axis < 3)
    (hcs : s.cropped_shape.length = 3) (hcl : s.crop_limits.length = 6) :
    CropAxis imin imax axis s
      = .ok { s with
          cropped_shape := s.cropped_shape.set axis (wrap (imax + 4294967296 - imin)),
          crop_limits := (s.crop_limits.set (2 * axis) imin).set (2 * axis + 1) imax,
          cropped := true } := by
  have h1 : wrap (2 * axis) = 2 * axis := wrap_of_lt (by omega)
  have h2 : wrap (2 * axis + 1) = 2 * axis + 1 := wrap_of_lt (by omega)
  have h3 : axis < s.cropped_shape.length := by omega
  have h4 : 2 * axis < s.crop_limits.length := by omega
  have h5 : 2 * axis + 1 < s.crop_limits.length := by omega
  simp [CropAxis, vset, h1, h2, h3, h4, h5, bind, Except.bind, pure, Except.pure]

theorem CropAxis_ok {imin imax axis : Nat} {s s1 : G4VoxelArrayBase}
    (hcs : s.cropped_shape.length = 3) (hcl : s.crop_limits.length = 6)
    (h : CropAxis imin imax axis s = .ok s1) :
    axis < 3 ∧ s1 = { s with
          cropped_shape := s.cropped_shape.set axis (wrap (imax + 4294967296 - imin)),
          crop_limits := (s.crop_limits.set (2 * axis) imin).set (2 * axis + 1) imax,
          cropped := true } := by
  by_cases hax : axis < 3
  · rw [CropAxis_eq hax hcs hcl] at h
    exact ⟨hax, (Except.ok.inj h).symm⟩
  · exfalso
    unfold CropAxis vset at h
    rw [if_neg (by omega)] at h
    cases h

theorem MergeAxis_eq {size axis : Nat} {s : G4VoxelArrayBase}
    (hk : 0 < size) (hcs : axis < s.cropped_shape.length)
    (hms : axis < s.merged_shape.length) (hmz : axis < s.merge_size.length) :
    MergeAxis size axis s
      = .ok { s with
          merged_shape := s.merged_shape.set axis (s.cropped_shape.getD axis 0 / size),
          merge_size := s.merge_size.set axis size,
          merged := true } := by
  have hne : ¬ size = 0 := by omega
  have hg : vget s.cropped_shape axis = .ok (s.cropped_shape.getD axis 0) :=
    vget_of_lt hcs
  simp [MergeAxis, vset, hg, hms, hmz, hne, bind, Except.bind, pure, Except.pure]

theorem MergeAxis_ok {size axis : Nat} {s s1 : G4VoxelArrayBase}
    (hcs : s.cropped_shape.length = 3) (hms : s.merged_shape.length = 3)
    (hmz : s.merge_size.length = 3) (h : MergeAxis size axis s = .ok s1) :
    axis < 3 ∧ 0 < size ∧ s1 = { s with
          merged_shape := s.merged_shape.set axis (s.cropped_shape.getD axis 0 / size),
          merge_size := s.merge_size.set axis size,
          merged := true } := by
  by_cases hax : axis < 3
  · by_cases hk : 0 < size
    · rw [MergeAxis_eq hk (by omega) (by omega) (by omega)] at h
      exact ⟨hax, hk, (Except.ok.inj h).symm⟩
    · exfalso
      have h0 : size = 0 := by omega
      subst h0
      unfold MergeAxis at h
      rw [vget_of_lt (by omega)] at h
      cases h
  · exfalso
    unfold MergeAxis vget at h
    rw [List.getElem?_eq_none (by omega)] at h
    cases h

theorem list_len3 {l : List Nat} (h : l.length = 3) : ∃ a b c, l = [a, b, c] := by
  match l, h with
  | [a, b, c], _ => exact ⟨a, b, c, rfl⟩

theorem list_len6 {l : List Nat} (h : l.length = 6) :
    ∃ a b c d e f, l = [a, b, c, d, e, f] := by
  match l, h with
  | [a, b, c, d, e, f], _ => exact ⟨a, b, c, d, e, f, rfl⟩

theorem Init_data_eq {data : G4VoxelData} {s0 : G4VoxelArrayBase} (hf : Fresh s0)
    (hw : data.WellFormed) :
    ∃ a b c, data.shape = [a, b, c] ∧
      Init_data data s0 = .ok
        { length := data.length, ndims := data.ndims, order := data.order,
          shape := [a, b, c], spacing := data.spacing, cropped := false,
          crop_limits := [0, a, 0, b, 0, c], cropped_shape := [a, b, c],
          merged := false, merge_size := [1, 1, 1], merged_shape := [a, b, c] } := by
  obtain ⟨a, b, c, habc⟩ := list_len3 hw.1
  obtain ⟨-, -, hcl, -, hmz, -⟩ := hf
  refine ⟨a, b, c, habc, ?_⟩
  simp [Init_data, Init, vget, habc, hcl, hmz, bind, Except.bind, pure, Except.pure]

theorem Inv_bind {data : G4VoxelData} {s0 s : G4VoxelArrayBase} (hf : Fresh s0)
    (hw : data.WellFormed) (h : Init_data data s0 = .ok s) : Inv data s := by
  obtain ⟨a, b, c, habc, he⟩ := Init_data_eq hf hw
  rw [he] at h
  have hs := (Except.ok.inj h).symm
  subst hs
  have hu := hw.2
  rw [habc] at hu
  exact ⟨habc.symm, rfl, hu, rfl, rfl, rfl, rfl⟩

theorem Inv_CropAxis {data : G4VoxelData} {imin imax axis : Nat} {s s1 : G4VoxelArrayBase}
    (hI : Inv data s) (h : CropAxis imin imax axis s = .ok s1) : Inv data s1 := by
  obtain ⟨-, rfl⟩ := CropAxis_ok hI.cs_len hI.cl_len h
  exact ⟨hI.shape_eq, hI.shape_len, hI.shape_u32, by simp [hI.cs_len], hI.ms_len,
    hI.mz_len, by simp [hI.cl_len]⟩

theorem Inv_MergeAxis {data : G4VoxelData} {size axis : Nat} {s s1 : G4VoxelArrayBase}
    (hI : Inv data s) (h : MergeAxis size axis s = .ok s1) : Inv data s1 := by
  obtain ⟨-, -, rfl⟩ := MergeAxis_ok hI.cs_len hI.ms_len hI.mz_len h
  exact ⟨hI.shape_eq, hI.shape_len, hI.shape_u32, hI.cs_len, by simp [hI.ms_len],
    by simp [hI.mz_len], hI.cl_len⟩

theorem Inv_setCropped {data : G4VoxelData} {s : G4VoxelArrayBase} (b : Bool)
    (hI : Inv data s) : Inv data { s with cropped := b } :=
  ⟨hI.shape_eq, hI.shape_len, hI.shape_u32, hI.cs_len, hI.ms_len, hI.mz_len, hI.cl_len⟩

theorem Inv_setMerged {data : G4VoxelData} {s : G4VoxelArrayBase} (b : Bool)
    (hI : Inv data s) : Inv data { s with merged := b } :=
  ⟨hI.shape_eq, hI.shape_len, hI.shape_u32, hI.cs_len, hI.ms_len, hI.mz_len, hI.cl_len⟩

theorem Inv_Crop {data : G4VoxelData} {a b c d e f : Nat} {s s1 : G4VoxelArrayBase}
    (hI : Inv data s) (h : Crop a b c d e f s = .ok s1) : Inv data s1 := by
  obtain ⟨t1, h1, h⟩ := bind_ok h
  obtain ⟨t2, h2, h3⟩ := bind_ok h
  exact Inv_CropAxis (Inv_CropAxis (Inv_CropAxis hI h1) h2) h3

theorem Inv_Merge {data : G4VoxelData} {a b c : Nat} {s s1 : G4VoxelArrayBase}
    (hI : Inv data s) (h : Merge a b c s = .ok s1) : Inv data s1 := by
  obtain ⟨t1, h1, h⟩ := bind_ok h
  obtain ⟨t2, h2, h3⟩ := bind_ok h
  exact Inv_MergeAxis (Inv_MergeAxis (Inv_MergeAxis hI h1) h2) h3

theorem Inv_ClearCrop {data : G4VoxelData} {s s1 : G4VoxelArrayBase}
    (hI : Inv data s) (h : ClearCrop s = .ok s1) : Inv data s1 := by
  obtain ⟨x0, -, h⟩ := bind_ok h
  obtain ⟨t1, h1, h⟩ := bind_ok h
  obtain ⟨x1, -, h⟩ := bind_ok h
  obtain ⟨t2, h2, h⟩ := bind_ok h
  obtain ⟨x2, -, h⟩ := bind_ok h
  obtain ⟨t3, h3, h⟩ := bind_ok h
  have hs := (Except.ok.inj h).symm
  subst hs
  exact Inv_setCropped false (Inv_CropAxis (Inv_CropAxis (Inv_CropAxis hI h1) h2) h3)

theorem Inv_ClearMerge {data : G4VoxelData} {s s1 : G4VoxelArrayBase}
    (hI : Inv data s) (h : ClearMerge s = .ok s1) : Inv data s1 := by
  obtain ⟨t1, h1, h⟩ := bind_ok h
  obtain ⟨t2, h2, h⟩ := bind_ok h
  obtain ⟨t3, h3, h⟩ := bind_ok h
  have hs := (Except.ok.inj h).symm
  subst hs
  exact Inv_setMerged false (Inv_MergeAxis (Inv_MergeAxis (Inv_MergeAxis hI h1) h2) h3)

theorem Inv_run {data : G4VoxelData} {op : Op} {s s1 : G4VoxelArrayBase}
    (hI : Inv data s) (h : op.run s = .ok s1) : Inv data s1 := by
  cases op with
  | cropAxis imin imax axis => exact Inv_CropAxis hI h
  | cropX a b => exact Inv_CropAxis hI h
  | cropY a b => exact Inv_CropAxis hI h
  | cropZ a b => exact Inv_CropAxis hI h
  | crop a b c d e f => exact Inv_Crop hI h
  | cropBool b =>
    have hs := (Except.ok.inj h).symm
    subst hs
    exact Inv_setCropped b hI
  | clearCrop => exact Inv_ClearCrop hI h
  | mergeAxis size axis => exact Inv_MergeAxis hI h
  | mergeX k => exact Inv_MergeAxis hI h
  | mergeY k => exact Inv_MergeAxis hI h
  | mergeZ k => exact Inv_MergeAxis hI h
  | merge a b c => exact Inv_Merge hI h
  | clearMerge => exact Inv_ClearMerge hI h

theorem Inv_of_ReachableVia {allowed : Op → Prop} {data : G4VoxelData}
    {s : G4VoxelArrayBase} (h : ReachableVia allowed data s) : Inv data s := by
  induction h with
  | bind s0 s hf hw hi => exact Inv_bind hf hw hi
  | step s s1 op _ _ _ hrun ih => exact Inv_run ih hrun

theorem Crop_eq {a b c d e f : Nat} {s : G4VoxelArrayBase}
    (hcs : s.cropped_shape.length = 3) (hcl : s.crop_limits.length = 6) :
    Crop a b c d e f s
      = .ok { s with
          cropped_shape := [wrap (b + 4294967296 - a), wrap (d + 4294967296 - c),
            wrap (f + 4294967296 - e)],
          crop_limits := [a, b, c, d, e, f],
          cropped := true } := by
  obtain ⟨c0, c1, c2, hc⟩ := list_len3 hcs
  obtain ⟨l0, l1, l2, l3, l4, l5, hl⟩ := list_len6 hcl
  unfold Crop CropX CropY CropZ
  rw [CropAxis_eq (by omega) hcs hcl]
  show CropAxis c d 1 _ >>= _ = _
  rw [CropAxis_eq (by omega) (by simp [hcs]) (by simp [hcl])]
  show CropAxis e f 2 _ = _
  rw [CropAxis_eq (by omega) (by simp [hcs]) (by simp [hcl])]
  simp [hc, hl]

theorem ClearCrop_eq {data : G4VoxelData} {s : G4VoxelArrayBase} (hI : Inv data s) :
    ClearCrop s
      = .ok { s with
          cropped_shape := s.shape,
          crop_limits := [0, s.shape.getD 0 0, 0, s.shape.getD 1 0, 0, s.shape.getD 2 0],
          cropped := false } := by
  obtain ⟨a, b, c, hs⟩ := list_len3 hI.shape_len
  obtain ⟨c0, c1, c2, hc⟩ := list_len3 hI.cs_len
  obtain ⟨l0, l1, l2, l3, l4, l5, hl⟩ := list_len6 hI.cl_len
  have hu := hI.shape_u32
  rw [hs] at hu
  have ha : wrap (a + 4294967296 - 0) = a := by
    have := hu a (by simp)
    unfold wrap; omega
  have hb : wrap (b + 4294967296 - 0) = b := by
    have := hu b (by simp)
    unfold wrap; omega
  have hc3 : wrap (c + 4294967296 - 0) = c := by
    have := hu c (by simp)
    unfold wrap; omega
  have e0 : vget s.shape 0 = .ok a := by simp [vget, hs]
  have e1 : vget s.shape 1 = .ok b := by simp [vget, hs]
  have e2 : vget s.shape 2 = .ok c := by simp [vget, hs]
  unfold ClearCrop CropX CropY CropZ
  rw [e0]
  show CropAxis 0 a 0 s >>= _ = _
  rw [CropAxis_eq (by omega) hI.cs_len hI.cl_len]
  show vget s.shape 1 >>= _ = _
  rw [e1]
  show CropAxis 0 b 1 _ >>= _ = _
  rw [CropAxis_eq (by omega) (by simp [hI.cs_len]) (by simp [hI.cl_len])]
  show vget s.shape 2 >>= _ = _
  rw [e2]
  show CropAxis 0 c 2 _ >>= _ = _
  rw [CropAxis_eq (by omega) (by simp [hI.cs_len]) (by simp [hI.cl_len])]
  simp only [Nat.sub_zero] at ha hb hc3
  simp [hs, hc, hl, ha, hb, hc3, bind, Except.bind, pure, Except.pure]

theorem MergeAxis_frame {data : G4VoxelData} {size axis : Nat} {s s1 : G4VoxelArrayBase}
    (hI : Inv data s) (h : MergeAxis size axis s = .ok s1) :
    s1.cropped = s.cropped ∧ s1.cropped_shape = s.cropped_shape ∧
      s1.crop_limits = s.crop_limits ∧ s1.shape = s.shape := by
  obtain ⟨-, -, rfl⟩ := MergeAxis_ok hI.cs_len hI.ms_len hI.mz_len h
  exact ⟨rfl, rfl, rfl, rfl⟩

theorem Merge_frame {data : G4VoxelData} {a b c : Nat} {s s1 : G4VoxelArrayBase}
    (hI : Inv data s) (h : Merge a b c s = .ok s1) :
    s1.cropped = s.cropped ∧ s1.cropped_shape = s.cropped_shape ∧
      s1.crop_limits = s.crop_limits ∧ s1.shape = s.shape := by
  obtain ⟨t1, h1, h⟩ := bind_ok h
  obtain ⟨t2, h2, h3⟩ := bind_ok h
  have I1 := Inv_MergeAxis hI h1
  have I2 := Inv_MergeAxis I1 h2
  obtain ⟨a1, b1, c1, d1⟩ := MergeAxis_frame hI h1
  obtain ⟨a2, b2, c2, d2⟩ := MergeAxis_frame I1 h2
  obtain ⟨a3, b3, c3, d3⟩ := MergeAxis_frame I2 h3
  exact ⟨by rw [a3, a2, a1], by rw [b3, b2, b1], by rw [c3, c2, c1], by rw [d3, d2, d1]⟩

theorem ClearMerge_frame {data : G4VoxelData} {s s1 : G4VoxelArrayBase}
    (hI : Inv data s) (h : ClearMerge s = .ok s1) :
    s1.cropped = s.cropped ∧ s1.cropped_shape = s.cropped_shape ∧
      s1.crop_limits = s.crop_limits ∧ s1.shape = s.shape := by
  obtain ⟨t1, h1, h⟩ := bind_ok h
  obtain ⟨t2, h2, h⟩ := bind_ok h
  obtain ⟨t3, h3, h⟩ := bind_ok h
  have hs := (Except.ok.inj h).symm
  subst hs
  have I1 := Inv_MergeAxis hI h1
  have I2 := Inv_MergeAxis I1 h2
  obtain ⟨a1, b1, c1, d1⟩ := MergeAxis_frame hI h1
  obtain ⟨a2, b2, c2, d2⟩ := MergeAxis_frame I1 h2
  obtain ⟨a3, b3, c3, d3⟩ := MergeAxis_frame I2 h3
  exact ⟨by show t3.cropped = _; rw [a3, a2, a1],
    by show t3.cropped_shape = _; rw [b3, b2, b1],
    by show t3.crop_limits = _; rw [c3, c2, c1],
    by show t3.shape = _; rw [d3, d2, d1]⟩

/-- Without `Crop(false)`, an inactive crop flag means that the stored cropped
shape is the raw shape. -/
theorem cropped_shape_of_not_cropped {data : G4VoxelData} {s : G4VoxelArrayBase}
    (h : ReachableVia (fun op => op ≠ Op.cropBool false) data s) :
    s.cropped = false → s.cropped_shape = s.shape := by
  induction h with
  | bind s0 s hf hw hi =>
    intro _
    obtain ⟨a, b, c, -, he⟩ := Init_data_eq hf hw
    rw [he] at hi
    have hs := (Except.ok.inj hi).symm
    subst hs
    rfl
  | step s s1 op hreach hallow _ hrun ih =>
    have hI := Inv_of_ReachableVia hreach
    intro hc
    have crop_case : ∀ {imin imax axis : Nat}, CropAxis imin imax axis s = .ok s1 →
        s1.cropped_shape = s1.shape := by
      intro imin imax axis hr
      obtain ⟨-, rfl⟩ := CropAxis_ok hI.cs_len hI.cl_len hr
      cases hc
    have merge_case : ∀ {size axis : Nat}, MergeAxis size axis s = .ok s1 →
        s1.cropped_shape = s1.shape := by
      intro size axis hr
      obtain ⟨a1, b1, -, d1⟩ := MergeAxis_frame hI hr
      rw [b1, d1]
      exact ih (by rw [← a1]; exact hc)
    cases op with
    | cropAxis imin imax axis => exact crop_case hrun
    | cropX a b => exact crop_case hrun
    | cropY a b => exact crop_case hrun
    | cropZ a b => exact crop_case hrun
    | crop a b c d e f =>
      have hr : Crop a b c d e f s = .ok s1 := hrun
      rw [Crop_eq hI.cs_len hI.cl_len] at hr
      have hs := (Except.ok.inj hr).symm
      subst hs
      cases hc
    | cropBool b =>
      have hs := (Except.ok.inj hrun).symm
      subst hs
      have hb : b = false := hc
      subst hb
      exact absurd rfl hallow
    | clearCrop =>
      have hr : ClearCrop s = .ok s1 := hrun
      rw [ClearCrop_eq hI] at hr
      have hs := (Except.ok.inj hr).symm
      subst hs
      rfl
    | mergeAxis size axis => exact merge_case hrun
    | mergeX k => exact merge_case hrun
    | mergeY k => exact merge_case hrun
    | mergeZ k => exact merge_case hrun
    | merge a b c =>
      obtain ⟨a1, b1, -, d1⟩ := Merge_frame hI hrun
      rw [b1, d1]
      exact ih (by rw [← a1]; exact hc)
    | clearMerge =>
      obtain ⟨a1, b1, -, d1⟩ := ClearMerge_frame hI hrun
      rw [b1, d1]
      exact ih (by rw [← a1]; exact hc)

theorem getD_set_ne {l : List Nat} {i j v : Nat} (h : i ≠ j) :
    (l.set i v).getD j 0 = l.getD j 0 := by
  rw [List.getD_eq_getElem?_getD, List.getD_eq_getElem?_getD, List.getElem?_set_ne h]

theorem getD_set_eq {l : List Nat} {i v : Nat} (h : i < l.length) :
    (l.set i v).getD i 0 = v := by
  rw [List.getD_eq_getElem?_getD, List.getElem?_set_self h]
  rfl

theorem Sync_CropAxis_ne {data : G4VoxelData} {imin imax axis a : Nat}
    {s s1 : G4VoxelArrayBase} (hI : Inv data s) (hne : axis ≠ a)
    (h : CropAxis imin imax axis s = .ok s1) (hS : Sync a s) : Sync a s1 := by
  obtain ⟨-, rfl⟩ := CropAxis_ok hI.cs_len hI.cl_len h
  unfold Sync at hS ⊢
  show s.merged_shape.getD a 0 = (s.cropped_shape.set axis _).getD a 0 / s.merge_size.getD a 0
  rw [getD_set_ne hne]
  exact hS

theorem Sync_MergeAxis {data : G4VoxelData} {size axis a : Nat}
    {s s1 : G4VoxelArrayBase} (hI : Inv data s) (hS : axis = a ∨ Sync a s)
    (h : MergeAxis size axis s = .ok s1) : Sync a s1 := by
  obtain ⟨hax, -, rfl⟩ := MergeAxis_ok hI.cs_len hI.ms_len hI.mz_len h
  unfold Sync
  show (s.merged_shape.set axis _).getD a 0
    = s.cropped_shape.getD a 0 / (s.merge_size.set axis size).getD a 0
  by_cases hax2 : axis = a
  · subst hax2
    rw [getD_set_eq (by rw [hI.ms_len]; exact hax), getD_set_eq (by rw [hI.mz_len]; exact hax)]
  · rw [getD_set_ne hax2, getD_set_ne hax2]
    rcases hS with h1 | h1
    · exact absurd h1 hax2
    · exact h1

theorem Sync_Merge {data : G4VoxelData} {x y z a : Nat} {s s1 : G4VoxelArrayBase}
    (hI : Inv data s) (ha : a < 3) (h : Merge x y z s = .ok s1) : Sync a s1 := by
  obtain ⟨t1, h1, h⟩ := bind_ok h
  obtain ⟨t2, h2, h3⟩ := bind_ok h
  have I1 := Inv_MergeAxis hI h1
  have I2 := Inv_MergeAxis I1 h2
  have hcases : a = 0 ∨ a = 1 ∨ a = 2 := by omega
  rcases hcases with rfl | rfl | rfl
  · exact Sync_MergeAxis I2 (Or.inr (Sync_MergeAxis I1 (Or.inr
      (Sync_MergeAxis hI (Or.inl rfl) h1)) h2)) h3
  · exact Sync_MergeAxis I2 (Or.inr (Sync_MergeAxis I1 (Or.inl rfl) h2)) h3
  · exact Sync_MergeAxis I2 (Or.inl rfl) h3

theorem Sync_ClearMerge {data : G4VoxelData} {a : Nat} {s s1 : G4VoxelArrayBase}
    (hI : Inv data s) (ha : a < 3) (h : ClearMerge s = .ok s1) : Sync a s1 := by
  obtain ⟨t1, h1, h⟩ := bind_ok h
  obtain ⟨t2, h2, h⟩ := bind_ok h
  obtain ⟨t3, h3, h⟩ := bind_ok h
  have hs := (Except.ok.inj h).symm
  subst hs
  have hm : Merge 1 1 1 s = .ok t3 := by
    unfold Merge
    rw [h1]
    show MergeY 1 t1 >>= _ = _
    rw [h2]
    exact h3
  have h4 : Sync a t3 := Sync_Merge hI ha hm
  exact h4

theorem Inv_of_InSync {data : G4VoxelData} {a : Nat} {s : G4VoxelArrayBase}
    (h : InSync data a s) : Inv data s := by
  induction h with
  | bind s0 s hf hw hi => exact Inv_bind hf hw hi
  | keep s s1 op _ _ _ hrun ih => exact Inv_run ih hrun
  | remerge s s1 op hreach _ _ hrun => exact Inv_run (Inv_of_ReachableVia hreach) hrun

theorem Sync_of_InSync {data : G4VoxelData} {a : Nat} {s : G4VoxelArrayBase}
    (ha : a < 3) (h : InSync data a s) : Sync a s := by
  induction h with
  | bind s0 s hf hw hi =>
    obtain ⟨x, y, z, -, he⟩ := Init_data_eq hf hw
    rw [he] at hi
    have hs := (Except.ok.inj hi).symm
    subst hs
    unfold Sync
    have hcases : a = 0 ∨ a = 1 ∨ a = 2 := by omega
    rcases hcases with rfl | rfl | rfl <;> simp
  | keep s s1 op hsync hcrop _ hrun ih =>
    have hI := Inv_of_InSync hsync
    cases op with
    | cropAxis imin imax axis =>
      have hne : axis ≠ a := by simpa [Op.cropsAxis] using hcrop
      exact Sync_CropAxis_ne hI hne hrun ih
    | cropX x y =>
      have hne : 0 ≠ a := by
        intro h0; subst h0; simp [Op.cropsAxis] at hcrop
      exact Sync_CropAxis_ne hI hne hrun ih
    | cropY x y =>
      have hne : 1 ≠ a := by
        intro h0; subst h0; simp [Op.cropsAxis] at hcrop
      exact Sync_CropAxis_ne hI hne hrun ih
    | cropZ x y =>
      have hne : 2 ≠ a := by
        intro h0; subst h0; simp [Op.cropsAxis] at hcrop
      exact Sync_CropAxis_ne hI hne hrun ih
    | crop x0 x1 y0 y1 z0 z1 => simp [Op.cropsAxis] at hcrop
    | cropBool b =>
      have hs := (Except.ok.inj hrun).symm
      subst hs
      exact ih
    | clearCrop => simp [Op.cropsAxis] at hcrop
    | mergeAxis size axis => exact Sync_MergeAxis hI (Or.inr ih) hrun
    | mergeX k => exact Sync_MergeAxis hI (Or.inr ih) hrun
    | mergeY k => exact Sync_MergeAxis hI (Or.inr ih) hrun
    | mergeZ k => exact Sync_MergeAxis hI (Or.inr ih) hrun
    | merge x y z => exact Sync_Merge hI ha hrun
    | clearMerge => exact Sync_ClearMerge hI ha hrun
  | remerge s s1 op hreach hmerge _ hrun =>
    have hI := Inv_of_ReachableVia hreach
    cases op with
    | mergeAxis size axis =>
      have he : axis = a := by simpa [Op.mergesAxis] using hmerge
      exact Sync_MergeAxis hI (Or.inl he) hrun
    | mergeX k =>
      have he : 0 = a := by
        have : a = 0 := by simpa [Op.mergesAxis] using hmerge
        exact this.symm
      exact Sync_MergeAxis hI (Or.inl he) hrun
    | mergeY k =>
      have he : 1 = a := by
        have : a = 1 := by simpa [Op.mergesAxis] using hmerge
        exact this.symm
      exact Sync_MergeAxis hI (Or.inl he) hrun
    | mergeZ k =>
      have he : 2 = a := by
        have : a = 2 := by simpa [Op.mergesAxis] using hmerge
        exact this.symm
      exact Sync_MergeAxis hI (Or.inl he) hrun
    | merge x y z => exact Sync_Merge hI ha hrun
    | clearMerge => exact Sync_ClearMerge hI ha hrun
    | cropAxis imin imax axis => simp [Op.mergesAxis] at hmerge
    | cropX x y => simp [Op.mergesAxis] at hmerge
    | cropY x y => simp [Op.mergesAxis] at hmerge
    | cropZ x y => simp [Op.mergesAxis] at hmerge
    | crop x0 x1 y0 y1 z0 z1 => simp [Op.mergesAxis] at hmerge
    | cropBool b => simp [Op.mergesAxis] at hmerge
    | clearCrop => simp [Op.mergesAxis] at hmerge

/-! ## `RoundValue` -/

/-- For a positive value the result is a nearest multiple of the step. -/
theorem RoundValue_pos_nearest {T : Type} [LinearOrderedField T] [FloorRing T]
    (val step : T) (hv : 0 < val) (hs : 0 < step) :
    (∃ k : ℤ, RoundValue val step = (k : T) * step) ∧
      |RoundValue val step - val| ≤ step / 2 := by
  unfold RoundValue
  rw [if_pos hv]
  refine ⟨⟨_, rfl⟩, ?_⟩
  have h1 := Int.floor_le ((val + step / 2) / step)
  have h2 := Int.lt_floor_add_one ((val + step / 2) / step)
  rw [le_div_iff₀ hs] at h1
  rw [div_lt_iff₀ hs] at h2
  rw [abs_le]
  constructor <;> linarith

/-- For a value that is not positive the result lies at least half a step
below the value. -/
theorem RoundValue_nonpos_le {T : Type} [LinearOrderedField T] [FloorRing T]
    (val step : T) (hv : val ≤ 0) (hs : 0 < step) :
    RoundValue val step ≤ val - step / 2 := by
  unfold RoundValue
  rw [if_neg (not_lt.mpr hv)]
  have h1 := Int.floor_le ((val - step / 2) / step)
  rw [le_div_iff₀ hs] at h1
  exact h1

theorem RoundValue_int_pos_eq (val step : ℤ) (hv : 0 < val) (hs : 0 < step) :
    ((RoundValue_int val step : ℤ) : ℚ)
      = (⌊((val : ℚ) + (step : ℚ) / 2) / (step : ℚ)⌋ : ℚ) * (step : ℚ) := by
  unfold RoundValue_int
  rw [if_pos hv]
  have hh : Int.tdiv step 2 = step / 2 := Int.tdiv_eq_ediv (le_of_lt hs) (by decide)
  have hh0 : 0 ≤ step / 2 := Int.ediv_nonneg (le_of_lt hs) (by decide)
  rw [hh, Int.tdiv_eq_ediv (by omega) (le_of_lt hs)]
  have hq1 : (val + step / 2) / step * step ≤ val + step / 2 :=
    Int.ediv_mul_le _ (ne_of_gt hs)
  have hq2 : val + step / 2 < ((val + step / 2) / step + 1) * step :=
    Int.lt_ediv_add_one_mul_self _ hs
  have hh1 : 2 * (step / 2) ≤ step := by omega
  have hh2 : step ≤ 2 * (step / 2) + 1 := by omega
  have hsq : (0 : ℚ) < (step : ℚ) := by exact_mod_cast hs
  have hfl : ⌊((val : ℚ) + (step : ℚ) / 2) / (step : ℚ)⌋ = (val + step / 2) / step := by
    rw [Int.floor_eq_iff, le_div_iff₀ hsq, div_lt_iff₀ hsq]
    have c1 : (((val + step / 2) / step * step : ℤ) : ℚ) ≤ ((val + step / 2 : ℤ) : ℚ) := by
      exact_mod_cast hq1
    have c2 : ((val + step / 2 : ℤ) : ℚ) + 1
        ≤ ((((val + step / 2) / step + 1) * step : ℤ) : ℚ) := by
      exact_mod_cast hq2
    have c3 : ((2 * (step / 2) : ℤ) : ℚ) ≤ (step : ℚ) := by exact_mod_cast hh1
    have c4 : (step : ℚ) ≤ ((2 * (step / 2) + 1 : ℤ) : ℚ) := by exact_mod_cast hh2
    push_cast at c1 c2 c3 c4
    constructor <;> linarith
  rw [hfl]
  push_cast
  rfl

theorem RoundValue_int_neg_eq (val step : ℤ) (hv : val < 0) :
    RoundValue_int val step = -RoundValue_int (-val) step := by
  unfold RoundValue_int
  rw [if_neg (by omega), if_pos (by omega)]
  have h : val - Int.tdiv step 2 = -(-val + Int.tdiv step 2) := by ring
  rw [h, Int.neg_tdiv]
  ring

theorem intResult_ok {n r : Int} (h : intResult n = .ok r) : r = n ∧ inRange 32 n := by
  unfold intResult at h
  by_cases hr : inRange 32 n
  · rw [if_pos hr] at h
    exact ⟨(Except.ok.inj h).symm, hr⟩
  · rw [if_neg hr] at h
    cases h

/-- A defined run for a signed-integer type returns the exact-arithmetic value,
with a non-zero step, a sum that `int` holds and a result that `T` holds. -/
theorem RoundValue_signed_value {bits : Nat} {val step r : Int}
    (h : RoundValue_signed bits val step = .ok r) :
    r = RoundValue_int val step ∧ step ≠ 0 ∧ inRange bits r := by
  unfold RoundValue_signed at h
  obtain ⟨sum, hsum, h⟩ := bind_ok h
  obtain ⟨rfl, -⟩ := intResult_ok hsum
  by_cases hz : step = 0
  · simp only [hz, if_true] at h
    cases h
  · simp only [hz, if_false] at h
    obtain ⟨u, -, h⟩ := bind_ok h
    obtain ⟨q, hq, h⟩ := bind_ok h
    obtain ⟨rfl, -⟩ := intResult_ok hq
    by_cases hr : inRange bits
        (Int.tdiv (if val > 0 then val + Int.tdiv step 2 else val - Int.tdiv step 2) step * step)
    · rw [if_pos hr] at h
      have hv := (Except.ok.inj h).symm
      subst hv
      refine ⟨?_, hz, hr⟩
      unfold RoundValue_int
      by_cases hp : val > 0
      · simp only [hp, if_true]
      · simp only [hp, if_false]
    · rw [if_neg hr] at h
      cases h

/-- The run for a signed-integer type is defined, with the truncating value,
when the step is not zero, `int` holds the sum and the quotient, and `T` holds
the product. -/
theorem RoundValue_signed_defined (bits : Nat) (val step : Int) (hz : step ≠ 0)
    (h1 : inRange 32 (if val > 0 then val + Int.tdiv step 2 else val - Int.tdiv step 2))
    (h2 : inRange 32
      (Int.tdiv (if val > 0 then val + Int.tdiv step 2 else val - Int.tdiv step 2) step))
    (h3 : inRange bits
      (Int.tdiv (if val > 0 then val + Int.tdiv step 2 else val - Int.tdiv step 2) step * step)) :
    RoundValue_signed bits val step
      = .ok (Int.tdiv (if val > 0 then val + Int.tdiv step 2 else val - Int.tdiv step 2) step
          * step) := by
  unfold RoundValue_signed intResult
  simp only [h1, h2, h3, hz, if_true, if_false, bind, Except.bind, pure, Except.pure]

theorem inRange_between {bits : Nat} {a b : Int} (ha : inRange bits a)
    (h0 : (0 ≤ b ∧ b ≤ a) ∨ (a ≤ b ∧ b ≤ 0)) : inRange bits b := by
  unfold inRange at ha ⊢
  have hp : (0 : Int) ≤ ((2 ^ (bits - 1) : Nat) : Int) := Int.ofNat_nonneg _
  omega

theorem tdiv_between (a : Int) {b : Int} (hb : 0 < b) :
    (0 ≤ a → 0 ≤ Int.tdiv a b ∧ Int.tdiv a b ≤ a) ∧
    (a ≤ 0 → a ≤ Int.tdiv a b ∧ Int.tdiv a b ≤ 0) := by
  constructor
  · intro ha
    rw [Int.tdiv_eq_ediv ha (le_of_lt hb)]
    exact ⟨Int.ediv_nonneg ha (le_of_lt hb), Int.ediv_le_self b ha⟩
  · intro ha
    have hn : (0 : Int) ≤ -a := by omega
    have e : Int.tdiv a b = -Int.tdiv (-a) b := by
      rw [Int.neg_tdiv, neg_neg]
    rw [e, Int.tdiv_eq_ediv hn (le_of_lt hb)]
    have h1 := Int.ediv_nonneg hn (le_of_lt hb)
    have h2 := Int.ediv_le_self b hn
    omega

/-! ## Clamping and reductions -/

theorem clamp_eq {T : Type} [LinearOrder T] (r lower upper : T) (h : lower ≤ upper) :
    (if (if r < lower then lower else r) > upper then upper
      else (if r < lower then lower else r)) = min (max r lower) upper := by
  rcases lt_or_le r lower with h1 | h1
  · rw [if_pos h1, if_neg (not_lt.mpr h), max_eq_right (le_of_lt h1), min_eq_left h]
  · rw [if_neg (not_lt.mpr h1), max_eq_left h1]
    rcases lt_or_le upper r with h2 | h2
    · rw [if_pos h2, min_eq_right (le_of_lt h2)]
    · rw [if_neg (not_lt.mpr h2), min_eq_left h2]

theorem max_element_mem {T : Type} [LinearOrder T] (xs : List T) :
    ∀ a : T, max_element a xs ∈ a :: xs := by
  induction xs with
  | nil => intro a; simp [max_element]
  | cons x xs ih =>
    intro a
    unfold max_element
    split
    · have := ih x
      exact List.mem_cons_of_mem _ this
    · have := ih a
      rcases List.mem_cons.mp this with h | h
      · rw [h]; exact List.mem_cons_self _ _
      · exact List.mem_cons_of_mem _ (List.mem_cons_of_mem _ h)

theorem le_max_element {T : Type} [LinearOrder T] (xs : List T) :
    ∀ a : T, a ≤ max_element a xs ∧ ∀ y ∈ xs, y ≤ max_element a xs := by
  induction xs with
  | nil => intro a; simp [max_element]
  | cons x xs ih =>
    intro a
    unfold max_element
    split
    · rename_i hlt
      obtain ⟨h1, h2⟩ := ih x
      refine ⟨le_trans (le_of_lt hlt) h1, ?_⟩
      intro y hy
      rcases List.mem_cons.mp hy with h | h
      · rw [h]; exact h1
      · exact h2 y h
    · rename_i hlt
      obtain ⟨h1, h2⟩ := ih a
      refine ⟨h1, ?_⟩
      intro y hy
      rcases List.mem_cons.mp hy with h | h
      · rw [h]; exact le_trans (not_lt.mp hlt) h1
      · exact h2 y h

theorem min_element_mem {T : Type} [LinearOrder T] (xs : List T) :
    ∀ a : T, min_element a xs ∈ a :: xs := by
  induction xs with
  | nil => intro a; simp [min_element]
  | cons x xs ih =>
    intro a
    unfold min_element
    split
    · have := ih x
      exact List.mem_cons_of_mem _ this
    · have := ih a
      rcases List.mem_cons.mp this with h | h
      · rw [h]; exact List.mem_cons_self _ _
      · exact List.mem_cons_of_mem _ (List.mem_cons_of_mem _ h)

theorem min_element_le {T : Type} [LinearOrder T] (xs : List T) :
    ∀ a : T, min_element a xs ≤ a ∧ ∀ y ∈ xs, min_element a xs ≤ y := by
  induction xs with
  | nil => intro a; simp [min_element]
  | cons x xs ih =>
    intro a
    unfold min_element
    split
    · rename_i hlt
      obtain ⟨h1, h2⟩ := ih x
      refine ⟨le_trans h1 (le_of_lt hlt), ?_⟩
      intro y hy
      rcases List.mem_cons.mp hy with h | h
      · rw [h]; exact h1
      · exact h2 y h
    · rename_i hlt
      obtain ⟨h1, h2⟩ := ih a
      refine ⟨h1, ?_⟩
      intro y hy
      rcases List.mem_cons.mp hy with h | h
      · rw [h]; exact le_trans h1 (not_lt.mp hlt)
      · exact h2 y h

/-! ## Runs of `GetIndex` without wraparound -/

theorem rowInner_of_exact (shape : List Nat) (i : Nat) :
    ∀ (fuel j offset v : Nat), rowInnerExact shape i fuel j offset = some v →
      rowInner shape i fuel j offset = .ok v := by
  intro fuel
  induction fuel with
  | zero => intro j offset v h; simp [rowInnerExact] at h
  | succ f ih =>
    intro j offset v h
    unfold rowInnerExact at h
    unfold rowInner
    by_cases hj : j < i
    · rw [if_pos hj] at h
      rw [if_pos hj]
      unfold vget
      cases hs : shape[j]? with
      | none => rw [hs] at h; cases h
      | some sv =>
        rw [hs] at h
        by_cases hlt : offset * sv < 4294967296
        · simp only [hlt, if_true] at h
          have := ih _ _ _ h
          show rowInner shape i f (wrap (j + 1)) (wrap (offset * sv)) = _
          rw [wrap_of_lt hlt]
          exact this
        · simp only [hlt, if_false] at h
          cases h
    · rw [if_neg hj] at h
      rw [if_neg hj]
      rw [Option.some.inj h]

theorem rowOuter_of_exact (indices shape : List Nat) :
    ∀ (fuel i index v : Nat), rowOuterExact indices shape fuel i index = some v →
      rowOuter indices shape fuel i index = .ok v := by
  intro fuel
  induction fuel with
  | zero => intro i index v h; simp [rowOuterExact] at h
  | succ f ih =>
    intro i index v h
    unfold rowOuterExact at h
    unfold rowOuter
    by_cases hi : i < indices.length
    · rw [if_pos hi] at h
      rw [if_pos hi]
      unfold vget
      cases hc : indices[i]? with
      | none => rw [hc] at h; cases h
      | some c =>
        rw [hc] at h
        dsimp only at h
        cases hin : rowInnerExact shape i (i + 1) 0 c with
        | none => rw [hin] at h; cases h
        | some offset =>
          rw [hin] at h
          have hin2 := rowInner_of_exact shape i _ _ _ _ hin
          by_cases hlt : index + offset < 4294967296
          · simp only [hlt, if_true] at h
            have := ih _ _ _ h
            show (rowInner shape i (i + 1) 0 c >>= _) = _
            rw [hin2]
            show rowOuter indices shape f (wrap (i + 1)) (wrap (index + offset)) = _
            rw [wrap_of_lt hlt]
            exact this
          · simp only [hlt, if_false] at h
            cases h
    · rw [if_neg hi] at h
      rw [if_neg hi]
      rw [Option.some.inj h]

theorem colInner_of_exact (shape : List Nat) (n i : Nat) :
    ∀ (fuel j offset v : Nat), colInnerExact shape n i fuel j offset = some v →
      colInner shape n i fuel j offset = .ok v := by
  intro fuel
  induction fuel with
  | zero => intro j offset v h; simp [colInnerExact] at h
  | succ f ih =>
    intro j offset v h
    unfold colInnerExact at h
    unfold colInner
    by_cases hj : wrap (i + 1) ≤ j ∧ j < n
    · rw [if_pos hj] at h
      rw [if_pos hj]
      unfold vget
      cases hs : shape[j]? with
      | none => rw [hs] at h; cases h
      | some sv =>
        rw [hs] at h
        by_cases hlt : offset * sv < 4294967296
        · simp only [hlt, if_true] at h
          have := ih _ _ _ h
          show colInner shape n i f (wrap (j + 4294967295)) (wrap (offset * sv)) = _
          rw [wrap_of_lt hlt]
          exact this
        · simp only [hlt, if_false] at h
          cases h
    · rw [if_neg hj] at h
      rw [if_neg hj]
      rw [Option.some.inj h]

theorem colOuter_of_exact (indices shape : List Nat) :
    ∀ (fuel i index v : Nat), colOuterExact indices shape fuel i index = some v →
      colOuter indices shape fuel i index = .ok v := by
  intro fuel
  induction fuel with
  | zero => intro i index v h; simp [colOuterExact] at h
  | succ f ih =>
    intro i index v h
    unfold colOuterExact at h
    unfold colOuter
    by_cases hi : i < indices.length
    · rw [if_pos hi] at h
      rw [if_pos hi]
      unfold vget
      cases hc : indices[i]? with
      | none => rw [hc] at h; cases h
      | some c =>
        rw [hc] at h
        dsimp only at h
        cases hin : colInnerExact shape indices.length i (indices.length + 1)
            (wrap (indices.length + 4294967295)) c with
        | none => rw [hin] at h; cases h
        | some offset =>
          rw [hin] at h
          have hin2 := colInner_of_exact shape indices.length i _ _ _ _ hin
          by_cases hlt : index + offset < 4294967296
          · simp only [hlt, if_true] at h
            have := ih _ _ _ h
            show (colInner shape indices.length i (indices.length + 1)
              (wrap (indices.length + 4294967295)) c >>= _) = _
            rw [hin2]
            show colOuter indices shape f (wrap (i + 4294967295)) (wrap (index + offset)) = _
            rw [wrap_of_lt hlt]
            exact this
          · simp only [hlt, if_false] at h
            cases h
    · rw [if_neg hi] at h
      rw [if_neg hi]
      rw [Option.some.inj h]

/-- A run of `GetIndex` without wraparound is a run of `GetIndex`. -/
theorem GetIndex_of_exact (self : G4VoxelArrayBase) (indices shape : List Nat) (v : Nat)
    (h : GetIndexExact self indices shape = some v) :
    GetIndex self indices shape = .ok v := by
  unfold GetIndexExact at h
  unfold GetIndex
  cases ho : self.order with
  | ROW_MAJOR =>
    rw [ho] at h
    simp only at h ⊢
    unfold vfront
    cases hh : indices.head? with
    | none => rw [hh] at h; cases h
    | some a =>
      rw [hh] at h
      exact rowOuter_of_exact indices shape _ _ _ _ h
  | COLUMN_MAJOR =>
    rw [ho] at h
    simp only at h ⊢
    unfold vback
    cases hh : indices.getLast? with
    | none => rw [hh] at h; cases h
    | some a =>
      rw [hh] at h
      exact colOuter_of_exact indices shape _ _ _ _ h

theorem wrap_small1 : wrap (0 + 1) = 1 := by decide
theorem wrap_small2 : wrap (1 + 1) = 2 := by decide
theorem wrap_small3 : wrap (2 + 1) = 3 := by decide
theorem wrap_down3a : wrap (3 + 4294967294) = 1 := by decide
theorem wrap_down3b : wrap (3 + 4294967295) = 2 := by decide
theorem wrap_down2 : wrap (2 + 4294967295) = 1 := by decide
theorem wrap_down1 : wrap (1 + 4294967295) = 0 := by decide
theorem wrap_down0 : wrap (0 + 4294967295) = 4294967295 := by decide

theorem rowInnerExact_step (shape : List Nat) (i f j offset s : Nat) (hj : j < i)
    (hs : shape[j]? = some s) (hlt : offset * s < 4294967296) :
    rowInnerExact shape i (f + 1) j offset
      = rowInnerExact shape i f (wrap (j + 1)) (offset * s) := by
  rw [rowInnerExact, if_pos hj, hs]
  simp only [hlt, if_true]

theorem rowInnerExact_exit (shape : List Nat) (i f j offset : Nat) (hj : ¬ j < i) :
    rowInnerExact shape i (f + 1) j offset = some offset := by
  rw [rowInnerExact, if_neg hj]

theorem rowOuterExact_step (indices shape : List Nat) (f i index c offset : Nat)
    (hi : i < indices.length) (hc : indices[i]? = some c)
    (hin : rowInnerExact shape i (i + 1) 0 c = some offset)
    (hlt : index + offset < 4294967296) :
    rowOuterExact indices shape (f + 1) i index
      = rowOuterExact indices shape f (wrap (i + 1)) (index + offset) := by
  rw [rowOuterExact, if_pos hi, hc]
  simp only [hin, hlt, if_true]

theorem rowOuterExact_exit (indices shape : List Nat) (f i index : Nat)
    (hi : ¬ i < indices.length) :
    rowOuterExact indices shape (f + 1) i index = some index := by
  rw [rowOuterExact, if_neg hi]

theorem colInnerExact_step (shape : List Nat) (n i f j offset s : Nat)
    (hj : wrap (i + 1) ≤ j ∧ j < n) (hs : shape[j]? = some s)
    (hlt : offset * s < 4294967296) :
    colInnerExact shape n i (f + 1) j offset
      = colInnerExact shape n i f (wrap (j + 4294967295)) (offset * s) := by
  rw [colInnerExact, if_pos hj, hs]
  simp only [hlt, if_true]

theorem colInnerExact_exit (shape : List Nat) (n i f j offset : Nat)
    (hj : ¬ (wrap (i + 1) ≤ j ∧ j < n)) :
    colInnerExact shape n i (f + 1) j offset = some offset := by
  rw [colInnerExact, if_neg hj]

theorem colOuterExact_step (indices shape : List Nat) (n j0 f i index c offset : Nat)
    (hn : indices.length = n) (hj0 : wrap (n + 4294967295) = j0)
    (hi : i < n) (hc : indices[i]? = some c)
    (hin : colInnerExact shape n i (n + 1) j0 c = some offset)
    (hlt : index + offset < 4294967296) :
    colOuterExact indices shape (f + 1) i index
      = colOuterExact indices shape f (wrap (i + 4294967295)) (index + offset) := by
  subst hn
  subst hj0
  rw [colOuterExact, if_pos hi, hc]
  simp only [hin, hlt, if_true]

theorem colOuterExact_exit (indices shape : List Nat) (f i index : Nat)
    (hi : ¬ i < indices.length) :
    colOuterExact indices shape (f + 1) i index = some index := by
  rw [colOuterExact, if_neg hi]

theorem rowExact_three {x y z s0 s1 s2 : Nat}
    (a1 : y * s0 < 4294967296) (a2 : x + y * s0 < 4294967296)
    (a3 : z * s0 < 4294967296) (a4 : z * s0 * s1 < 4294967296)
    (a5 : x + y * s0 + z * s0 * s1 < 4294967296) :
    rowOuterExact [x, y, z] [s0, s1, s2] (3 + 1) 1 x = some (x + y * s0 + z * s0 * s1) := by
  have i1 : rowInnerExact [s0, s1, s2] 1 (1 + 1) 0 y = some (y * s0) := by
    rw [rowInnerExact_step _ 1 1 0 y s0 (by decide) rfl a1, wrap_small1,
      rowInnerExact_exit _ 1 0 1 _ (by decide)]
  have i2 : rowInnerExact [s0, s1, s2] 2 (2 + 1) 0 z = some (z * s0 * s1) := by
    rw [rowInnerExact_step _ 2 2 0 z s0 (by decide) rfl a3, wrap_small1,
      rowInnerExact_step _ 2 1 1 (z * s0) s1 (by decide) rfl a4, wrap_small2,
      rowInnerExact_exit _ 2 0 2 _ (by decide)]
  rw [rowOuterExact_step _ _ 3 1 x y (y * s0) (by simp) rfl i1 a2, wrap_small2,
    rowOuterExact_step _ _ 2 2 (x + y * s0) z (z * s0 * s1) (by simp) rfl i2 a5, wrap_small3,
    rowOuterExact_exit _ _ 1 3 _ (by simp)]

theorem colExact_three {x y z s0 s1 s2 : Nat}
    (a1 : y * s2 < 4294967296) (a2 : z + y * s2 < 4294967296)
    (a3 : x * s2 < 4294967296) (a4 : x * s2 * s1 < 4294967296)
    (a5 : z + y * s2 + x * s2 * s1 < 4294967296) :
    colOuterExact [x, y, z] [s0, s1, s2] (3 + 1) 1 z = some (z + y * s2 + x * s2 * s1) := by
  have i1 : colInnerExact [s0, s1, s2] 3 1 (3 + 1) 2 y = some (y * s2) := by
    rw [colInnerExact_step _ 3 1 3 2 y s2 (by decide) rfl a1, wrap_down2,
      colInnerExact_exit _ 3 1 2 1 _ (by decide)]
  have i2 : colInnerExact [s0, s1, s2] 3 0 (3 + 1) 2 x = some (x * s2 * s1) := by
    rw [colInnerExact_step _ 3 0 3 2 x s2 (by decide) rfl a3, wrap_down2,
      colInnerExact_step _ 3 0 2 1 (x * s2) s1 (by decide) rfl a4, wrap_down1,
      colInnerExact_exit _ 3 0 1 0 _ (by decide)]
  rw [colOuterExact_step [x, y, z] [s0, s1, s2] 3 2 3 1 z y (y * s2) rfl wrap_down3b (by decide) rfl i1 a2,
    wrap_down1,
    colOuterExact_step [x, y, z] [s0, s1, s2] 3 2 2 0 (z + y * s2) x (x * s2 * s1) rfl wrap_down3b (by decide)
      rfl i2 a5,
    wrap_down0, colOuterExact_exit _ _ 1 4294967295 _ (by simp)]

theorem in_range_bound {x y z s0 s1 s2 : Nat} (hx : x < s0) (hy : y < s1) (hz : z < s2) :
    x + s0 * y + s0 * s1 * z < s0 * s1 * s2 := by
  have h1 : s0 * (y + 1) ≤ s0 * s1 := Nat.mul_le_mul_left s0 hy
  have h2 : s0 * s1 * (z + 1) ≤ s0 * s1 * s2 := Nat.mul_le_mul_left (s0 * s1) hz
  have e1 : s0 * (y + 1) = s0 * y + s0 := by ring
  have e2 : s0 * s1 * (z + 1) = s0 * s1 * z + s0 * s1 := by ring
  omega

theorem GetIndexExact_three (self : G4VoxelArrayBase) {x y z s0 s1 s2 : Nat}
    (hx : x < s0) (hy : y < s1) (hz : z < s2) (hN : s0 * s1 * s2 < 4294967296) :
    GetIndexExact self [x, y, z] [s0, s1, s2]
      = some (cellIndex self.order x y z s0 s1 s2) := by
  have hb := in_range_bound hx hy hz
  have hb2 := in_range_bound hz hy hx
  have e : s2 * s1 * s0 = s0 * s1 * s2 := by ring
  have p1 : 1 ≤ s1 := by omega
  have q2 : s0 * z ≤ s0 * s1 * z :=
    Nat.mul_le_mul_right z (Nat.le_mul_of_pos_right s0 (by omega))
  have r2 : s2 * x ≤ s2 * s1 * x :=
    Nat.mul_le_mul_right x (Nat.le_mul_of_pos_right s2 (by omega))
  unfold GetIndexExact
  cases ho : self.order with
  | ROW_MAJOR =>
    have c1 : y * s0 = s0 * y := Nat.mul_comm _ _
    have c3 : z * s0 = s0 * z := Nat.mul_comm _ _
    have c4 : z * s0 * s1 = s0 * s1 * z := by ring
    have a1 : y * s0 < 4294967296 := by omega
    have a2 : x + y * s0 < 4294967296 := by omega
    have a3 : z * s0 < 4294967296 := by omega
    have a4 : z * s0 * s1 < 4294967296 := by omega
    have a5 : x + y * s0 + z * s0 * s1 < 4294967296 := by omega
    show rowOuterExact [x, y, z] [s0, s1, s2] (3 + 1) 1 x = _
    rw [rowExact_three a1 a2 a3 a4 a5, c1, c4]
    rfl
  | COLUMN_MAJOR =>
    have c1 : y * s2 = s2 * y := Nat.mul_comm _ _
    have c3 : x * s2 = s2 * x := Nat.mul_comm _ _
    have c4 : x * s2 * s1 = s2 * s1 * x := by ring
    have a1 : y * s2 < 4294967296 := by omega
    have a2 : z + y * s2 < 4294967296 := by omega
    have a3 : x * s2 < 4294967296 := by omega
    have a4 : x * s2 * s1 < 4294967296 := by omega
    have a5 : z + y * s2 + x * s2 * s1 < 4294967296 := by omega
    show colOuterExact [x, y, z] [s0, s1, s2] (3 + 1) (wrap (3 + 4294967294)) z = _
    rw [wrap_down3a, colExact_three a1 a2 a3 a4 a5, c1, c4]
    rfl

theorem cellIndex_lt (order : Order) {x y z s0 s1 s2 : Nat}
    (hx : x < s0) (hy : y < s1) (hz : z < s2) :
    cellIndex order x y z s0 s1 s2 < s0 * s1 * s2 := by
  cases order with
  | ROW_MAJOR => exact in_range_bound hx hy hz
  | COLUMN_MAJOR =>
    have := in_range_bound hz hy hx
    have e : s2 * s1 * s0 = s0 * s1 * s2 := by ring
    rw [e] at this
    exact this

theorem digit_inj {a b a1 b1 n : Nat} (ha : a < n) (ha1 : a1 < n)
    (h : a + n * b = a1 + n * b1) : a = a1 ∧ b = b1 := by
  have hm : (a + n * b) % n = (a1 + n * b1) % n := by rw [h]
  rw [Nat.add_mul_mod_self_left, Nat.add_mul_mod_self_left, Nat.mod_eq_of_lt ha,
    Nat.mod_eq_of_lt ha1] at hm
  subst hm
  have h2 : n * b = n * b1 := Nat.add_left_cancel h
  exact ⟨rfl, Nat.eq_of_mul_eq_mul_left (by omega) h2⟩

theorem cellIndex_inj (order : Order) {x y z x1 y1 z1 s0 s1 s2 : Nat}
    (hx : x < s0) (hy : y < s1) (hz : z < s2)
    (hx1 : x1 < s0) (hy1 : y1 < s1) (hz1 : z1 < s2)
    (h : cellIndex order x y z s0 s1 s2 = cellIndex order x1 y1 z1 s0 s1 s2) :
    x = x1 ∧ y = y1 ∧ z = z1 := by
  cases order with
  | ROW_MAJOR =>
    have h2 : x + s0 * (y + s1 * z) = x1 + s0 * (y1 + s1 * z1) := by
      simp only [cellIndex] at h
      rw [Nat.mul_add, Nat.mul_add, ← Nat.mul_assoc, ← Nat.mul_assoc, ← Nat.add_assoc,
        ← Nat.add_assoc]
      exact h
    obtain ⟨e1, h3⟩ := digit_inj hx hx1 h2
    obtain ⟨e2, e3⟩ := digit_inj hy hy1 h3
    exact ⟨e1, e2, e3⟩
  | COLUMN_MAJOR =>
    have h2 : z + s2 * (y + s1 * x) = z1 + s2 * (y1 + s1 * x1) := by
      simp only [cellIndex] at h
      rw [Nat.mul_add, Nat.mul_add, ← Nat.mul_assoc, ← Nat.mul_assoc, ← Nat.add_assoc,
        ← Nat.add_assoc]
      exact h
    obtain ⟨e1, h3⟩ := digit_inj hz hz1 h2
    obtain ⟨e2, e3⟩ := digit_inj hy hy1 h3
    exact ⟨e3, e2, e1⟩

theorem GetIndex_xyz_in_range (self : G4VoxelArrayBase) {x y z s0 s1 s2 : Nat}
    (hs : self.shape = [s0, s1, s2])
    (hx : x < s0) (hy : y < s1) (hz : z < s2) (hN : s0 * s1 * s2 < 4294967296) :
    GetIndex_xyz self x y z = .ok (cellIndex self.order x y z s0 s1 s2) := by
  unfold GetIndex_xyz GetIndex_xyz_shape
  rw [hs]
  exact GetIndex_of_exact self _ _ _ (GetIndexExact_three self hx hy hz hN)

theorem vget_of_getElem? {T : Type} {v : List T} {i : Nat} {t : T} (h : v[i]? = some t) :
    vget v i = .ok t := by
  unfold vget
  rw [h]

/-! ## What crop and merge calls leave alone -/

theorem RawEq_refl (s : G4VoxelArrayBase) : RawEq s s := ⟨rfl, rfl, rfl, rfl, rfl⟩

theorem RawEq_trans {s2 s1 s : G4VoxelArrayBase} (h2 : RawEq s2 s1) (h1 : RawEq s1 s) :
    RawEq s2 s :=
  ⟨h2.1.trans h1.1, h2.2.1.trans h1.2.1, h2.2.2.1.trans h1.2.2.1,
    h2.2.2.2.1.trans h1.2.2.2.1, h2.2.2.2.2.trans h1.2.2.2.2⟩

theorem CropAxis_raw {imin imax axis : Nat} {s s1 : G4VoxelArrayBase}
    (h : CropAxis imin imax axis s = .ok s1) : RawEq s1 s := by
  unfold CropAxis at h
  obtain ⟨cs, -, h⟩ := bind_ok h
  obtain ⟨cl, -, h⟩ := bind_ok h
  obtain ⟨cl2, -, h⟩ := bind_ok h
  have hs := (Except.ok.inj h).symm
  subst hs
  exact ⟨rfl, rfl, rfl, rfl, rfl⟩

theorem MergeAxis_raw {size axis : Nat} {s s1 : G4VoxelArrayBase}
    (h : MergeAxis size axis s = .ok s1) : RawEq s1 s := by
  unfold MergeAxis at h
  obtain ⟨c, -, h⟩ := bind_ok h
  by_cases hz : size = 0
  · simp only [hz, if_true] at h
    cases h
  · simp only [hz, if_false] at h
    obtain ⟨u, -, h⟩ := bind_ok h
    obtain ⟨ms, -, h⟩ := bind_ok h
    obtain ⟨mz, -, h⟩ := bind_ok h
    have hs := (Except.ok.inj h).symm
    subst hs
    exact ⟨rfl, rfl, rfl, rfl, rfl⟩

theorem run_raw {op : Op} {s s1 : G4VoxelArrayBase} (h : op.run s = .ok s1) :
    RawEq s1 s := by
  cases op with
  | cropAxis imin imax axis => exact CropAxis_raw h
  | cropX a b => exact CropAxis_raw h
  | cropY a b => exact CropAxis_raw h
  | cropZ a b => exact CropAxis_raw h
  | crop a b c d e f =>
    obtain ⟨t1, h1, h⟩ := bind_ok h
    obtain ⟨t2, h2, h3⟩ := bind_ok h
    exact RawEq_trans (CropAxis_raw h3) (RawEq_trans (CropAxis_raw h2) (CropAxis_raw h1))
  | cropBool b =>
    have hs := (Except.ok.inj h).symm
    subst hs
    exact ⟨rfl, rfl, rfl, rfl, rfl⟩
  | clearCrop =>
    obtain ⟨x0, -, h⟩ := bind_ok h
    obtain ⟨t1, h1, h⟩ := bind_ok h
    obtain ⟨x1, -, h⟩ := bind_ok h
    obtain ⟨t2, h2, h⟩ := bind_ok h
    obtain ⟨x2, -, h⟩ := bind_ok h
    obtain ⟨t3, h3, h⟩ := bind_ok h
    have hs := (Except.ok.inj h).symm
    subst hs
    have r : RawEq t3 s :=
      RawEq_trans (CropAxis_raw h3) (RawEq_trans (CropAxis_raw h2) (CropAxis_raw h1))
    exact ⟨r.1, r.2.1, r.2.2.1, r.2.2.2.1, r.2.2.2.2⟩
  | mergeAxis size axis => exact MergeAxis_raw h
  | mergeX k => exact MergeAxis_raw h
  | mergeY k => exact MergeAxis_raw h
  | mergeZ k => exact MergeAxis_raw h
  | merge a b c =>
    obtain ⟨t1, h1, h⟩ := bind_ok h
    obtain ⟨t2, h2, h3⟩ := bind_ok h
    exact RawEq_trans (MergeAxis_raw h3) (RawEq_trans (MergeAxis_raw h2) (MergeAxis_raw h1))
  | clearMerge =>
    obtain ⟨t1, h1, h⟩ := bind_ok h
    obtain ⟨t2, h2, h⟩ := bind_ok h
    obtain ⟨t3, h3, h⟩ := bind_ok h
    have hs := (Except.ok.inj h).symm
    subst hs
    have r : RawEq t3 s :=
      RawEq_trans (MergeAxis_raw h3) (RawEq_trans (MergeAxis_raw h2) (MergeAxis_raw h1))
    exact ⟨r.1, r.2.1, r.2.2.1, r.2.2.2.1, r.2.2.2.2⟩

theorem runOps_raw (ops : List Op) :
    ∀ {s s1 : G4VoxelArrayBase}, runOps ops s = .ok s1 → RawEq s1 s := by
  induction ops with
  | nil =>
    intro s s1 h
    have hs := (Except.ok.inj h).symm
    subst hs
    exact RawEq_refl _
  | cons op ops ih =>
    intro s s1 h
    obtain ⟨t, h1, h2⟩ := bind_ok h
    exact RawEq_trans (ih h2) (run_raw h1)

theorem raw_of_ReachableVia {allowed : Op → Prop} {data : G4VoxelData}
    {s : G4VoxelArrayBase} (h : ReachableVia allowed data s) :
    s.shape = data.shape ∧ s.spacing = data.spacing ∧ s.order = data.order ∧
      s.length = data.length ∧ s.ndims = data.ndims := by
  induction h with
  | bind s0 s hf hw hi =>
    obtain ⟨a, b, c, habc, he⟩ := Init_data_eq hf hw
    rw [he] at hi
    have hs := (Except.ok.inj hi).symm
    subst hs
    exact ⟨habc.symm, rfl, rfl, rfl, rfl⟩
  | step s s1 op _ _ _ hrun ih =>
    obtain ⟨r1, r2, r3, r4, r5⟩ := run_raw hrun
    exact ⟨r1.trans ih.1, r2.trans ih.2.1, r3.trans ih.2.2.1, r4.trans ih.2.2.2.1,
      r5.trans ih.2.2.2.2⟩

theorem GetIndex_congr {s1 s : G4VoxelArrayBase} (h : s1.order = s.order)
    (indices shape : List Nat) : GetIndex s1 indices shape = GetIndex s indices shape := by
  unfold GetIndex
  rw [h]

theorem GetIndex_xyz_congr {s1 s : G4VoxelArrayBase} (h : RawEq s1 s) (x y z : Nat) :
    GetIndex_xyz s1 x y z = GetIndex_xyz s x y z := by
  unfold GetIndex_xyz GetIndex_xyz_shape
  rw [h.1, GetIndex_congr h.2.2.1]

theorem UnpackIndices_congr {s1 s : G4VoxelArrayBase} (h : RawEq s1 s) (index : Nat) :
    UnpackIndices s1 index = UnpackIndices s index := by
  unfold UnpackIndices
  rw [h.1, h.2.2.1]

theorem Merge_eq {k0 k1 k2 : Nat} {s : G4VoxelArrayBase}
    (h0 : 0 < k0) (h1 : 0 < k1) (h2 : 0 < k2)
    (hcs : s.cropped_shape.length = 3) (hms : s.merged_shape.length = 3)
    (hmz : s.merge_size.length = 3) :
    Merge k0 k1 k2 s
      = .ok { s with
          merged_shape := [s.cropped_shape.getD 0 0 / k0, s.cropped_shape.getD 1 0 / k1,
            s.cropped_shape.getD 2 0 / k2],
          merge_size := [k0, k1, k2],
          merged := true } := by
  obtain ⟨m0, m1, m2, hm⟩ := list_len3 hms
  obtain ⟨z0, z1, z2, hz⟩ := list_len3 hmz
  unfold Merge MergeX MergeY MergeZ
  rw [MergeAxis_eq h0 (by omega) (by omega) (by omega)]
  show MergeAxis k1 1 _ >>= _ = _
  rw [MergeAxis_eq h1 (by simp [hcs]) (by simp [hms]) (by simp [hmz])]
  show MergeAxis k2 2 _ = _
  rw [MergeAxis_eq h2 (by simp [hcs]) (by simp [hms]) (by simp [hmz])]
  simp [hm, hz]

/-! ## Positions and spacing -/

theorem vget_getD {α : Type} {v : List α} {i : Nat} (d : α) (h : i < v.length) :
    vget v i = .ok (v.getD i d) := by
  unfold vget
  rw [List.getElem?_eq_getElem h, List.getD_eq_getElem v d h]

theorem positionLoop_eq (self : G4VoxelArrayBase) (indices : List Nat)
    (h1 : indices.length ≤ self.shape.length) (h2 : indices.length ≤ self.spacing.length)
    (h32 : indices.length < 4294967296) :
    ∀ (d i : Nat) (acc : List ℚ) (fuel : Nat), i + d = indices.length → d < fuel →
      positionLoop self indices fuel i acc
        = .ok (acc ++ (List.range' i d).map fun k =>
            GetPosition (indices.getD k 0) (self.shape.getD k 0) (self.spacing.getD k 0)) := by
  intro d
  induction d with
  | zero =>
    intro i acc fuel hi hf
    obtain ⟨f, rfl⟩ : ∃ f, fuel = f + 1 := ⟨fuel - 1, by omega⟩
    have hn : ¬ i < indices.length := by omega
    simp [positionLoop, hn]
  | succ d ih =>
    intro i acc fuel hi hf
    obtain ⟨f, rfl⟩ : ∃ f, fuel = f + 1 := ⟨fuel - 1, by omega⟩
    have hlt : i < indices.length := by omega
    have hw : wrap (i + 1) = i + 1 := wrap_of_lt (by omega)
    have e1 : vget indices i = .ok (indices.getD i 0) := vget_getD 0 hlt
    have e2 : vget self.shape i = .ok (self.shape.getD i 0) := vget_getD 0 (by omega)
    have e3 : vget self.spacing i = .ok (self.spacing.getD i 0) := vget_getD 0 (by omega)
    have step : positionLoop self indices (f + 1) i acc
        = positionLoop self indices f (i + 1)
            (acc ++ [GetPosition (indices.getD i 0) (self.shape.getD i 0)
              (self.spacing.getD i 0)]) := by
      rw [positionLoop, if_pos hlt, e1, e2, e3, hw]
      rfl
    rw [step, ih (i + 1) _ f (by omega) (by omega), List.range'_succ]
    simp

theorem GetPosition_vec_eq (self : G4VoxelArrayBase) (indices : List Nat)
    (h1 : indices.length ≤ self.shape.length) (h2 : indices.length ≤ self.spacing.length)
    (h32 : indices.length < 4294967296) :
    GetPosition_vec self indices
      = .ok ((List.range indices.length).map fun k =>
          GetPosition (indices.getD k 0) (self.shape.getD k 0) (self.spacing.getD k 0)) := by
  unfold GetPosition_vec
  rw [positionLoop_eq self indices h1 h2 h32 indices.length 0 [] _ (by omega) (by omega),
    List.range_eq_range']
  simp

/-! ## Binding -/

theorem Init_data_appends (data : G4VoxelData) (s0 : G4VoxelArrayBase) (a b c : Nat)
    (hs : data.shape = [a, b, c]) :
    Init_data data s0 = .ok
      { length := data.length, ndims := data.ndims, order := data.order,
        shape := [a, b, c], spacing := data.spacing, cropped := false,
        crop_limits := s0.crop_limits ++ [0, a, 0, b, 0, c], cropped_shape := [a, b, c],
        merged := false, merge_size := s0.merge_size ++ [1, 1, 1],
        merged_shape := [a, b, c] } := by
  simp [Init_data, Init, vget, hs, bind, Except.bind, pure, Except.pure]

theorem UnpackIndices_col (s : G4VoxelArrayBase) (x y z s0 s1 s2 : Nat)
    (ho : s.order = .COLUMN_MAJOR) (hs : s.shape = [s0, s1, s2])
    (hx : x < s0) (hy : y < s1) (h32 : s0 * s1 < 4294967296) :
    UnpackIndices s (x + s0 * y + s0 * s1 * z) = .ok [x, y, z] := by
  have hw : wrap (s0 * s1) = s0 * s1 := wrap_of_lt h32
  have hpos : 0 < s0 * s1 := Nat.mul_pos (by omega) (by omega)
  have hlt : x + s0 * y < s0 * s1 := by
    have h1 : s0 * (y + 1) ≤ s0 * s1 := Nat.mul_le_mul_left s0 hy
    have e1 : s0 * (y + 1) = s0 * y + s0 := by ring
    omega
  have hz : (x + s0 * y + s0 * s1 * z) / (s0 * s1) = z := by
    rw [Nat.add_mul_div_left _ _ hpos, Nat.div_eq_of_lt hlt, Nat.zero_add]
  have hsub : (x + s0 * y + s0 * s1 * z) % (s0 * s1) = x + s0 * y := by
    rw [Nat.add_mul_mod_self_left, Nat.mod_eq_of_lt hlt]
  have hy2 : (x + s0 * y) / s0 = y := by
    rw [Nat.add_mul_div_left _ _ (by omega : 0 < s0), Nat.div_eq_of_lt hx, Nat.zero_add]
  have hx2 : (x + s0 * y) % s0 = x := by
    rw [Nat.add_mul_mod_self_left, Nat.mod_eq_of_lt hx]
  have hne : ¬ s0 * s1 = 0 := by omega
  have hne0 : ¬ s0 = 0 := by omega
  simp [UnpackIndices, ho, hs, vget, hw, hz, hsub, hy2, hx2, hne, hne0, bind, Except.bind,
    pure, Except.pure]

/-! ## Rounded access -/

/-- For a stored real part other than 0 the complex accessor rounds as `RoundValue`. -/
theorem complex_round_of_ne_zero {T : Type} [LinearOrderedField T] [FloorRing T]
    (c : G4VoxelArrayComplex T) (x : Nat) (v w s t : T) (hx : c.array[x]? = some (v, w))
    (hv : v ≠ 0) : c.GetRoundedValue x (s, t) = .ok (RoundValue v s) := by
  have hg : c.GetValue x = .ok v := by
    unfold G4VoxelArrayComplex.GetValue
    show (vget c.array x >>= _) = _
    rw [vget_of_getElem? hx]
    rfl
  unfold G4VoxelArrayComplex.GetRoundedValue RoundValue
  rw [hg]
  show (if v < 0 then _ else _) = _
  rcases lt_or_gt_of_ne hv with h | h
  · rw [if_pos h, if_neg (not_lt.mpr (le_of_lt h))]
    rfl
  · rw [if_neg (not_lt.mpr (le_of_lt h)), if_pos h]
    rfl

theorem RoundValue_zero_five : RoundValue (0 : ℚ) 5 = -5 := by
  have h : ⌊((0 : ℚ) - 5 / 2) / 5⌋ = -1 := by
    rw [Int.floor_eq_iff]; norm_num
  unfold RoundValue
  rw [if_neg (by norm_num), h]
  norm_num

theorem complex_round_zero_five :
    ((⌊((0 : ℚ) + 5 / 2) / 5⌋ : ℚ) * 5) = 0 := by
  have h : ⌊((0 : ℚ) + 5 / 2) / 5⌋ = 0 := by
    rw [Int.floor_eq_iff]; norm_num
  rw [h]
  norm_num

/-! ## Claims -/

/-- C1: the round trip `UnpackIndices(GetIndex(x,y,z)) = (x,y,z)` does not hold in
the code. On shape (2,3,5) under `ROW_MAJOR` the coordinate (1,2,4) flattens
to 29 and unpacks to (1,4,2); under `COLUMN_MAJOR` the coordinate (0,0,1)
flattens to 1 and unpacks to (1,0,0). -/
theorem unpack_getIndex_mismatch :
    (bound (data235 .ROW_MAJOR) >>= fun s => GetIndex_xyz s 1 2 4) = .ok 29 ∧
    (bound (data235 .ROW_MAJOR) >>= fun s => UnpackIndices s 29) = .ok [1, 4, 2] ∧
    (bound (data235 .ROW_MAJOR) >>= fun s => unpackOfIndex s 1 2 4) = .ok [1, 4, 2] ∧
    (bound (data235 .COLUMN_MAJOR) >>= fun s => GetIndex_xyz s 0 0 1) = .ok 1 ∧
    (bound (data235 .COLUMN_MAJOR) >>= fun s => UnpackIndices s 1) = .ok [1, 0, 0] ∧
    (bound (data235 .COLUMN_MAJOR) >>= fun s => unpackOfIndex s 0 0 1) = .ok [1, 0, 0] := by
  decide

/-- C2: `GetIndex(indices, shape)` returns, for every index list of length
`n >= 1` with `n <= shape.size()`, the closed form of its ordering modulo
`2^32` (so both loops terminate): the sum of `indices[i] * prod_{j<i} shape[j]`
under `ROW_MAJOR`, the sum of `indices[i] * prod_{i<j<n} shape[j]` under
`COLUMN_MAJOR`. For three axes these are `c0 + s0*c1 + s0*s1*c2` and
`c2 + s2*c1 + s2*s1*c0`, and on shape (2,3,5) at (1,2,4) both give 29. -/
theorem GetIndex_closed_form :
    (∀ (self : G4VoxelArrayBase) (indices shape : List Nat),
      1 ≤ indices.length → indices.length ≤ shape.length →
      indices.length < 4294967296 → (∀ c ∈ indices, c < 4294967296) →
      GetIndex self indices shape
        = .ok ((match self.order with
                | .ROW_MAJOR => rowMajorSum indices shape
                | .COLUMN_MAJOR => colMajorSum indices shape) % 4294967296)) ∧
    (∀ (self : G4VoxelArrayBase) (c0 c1 c2 s0 s1 s2 : Nat),
      c0 < 4294967296 → c1 < 4294967296 → c2 < 4294967296 →
      GetIndex self [c0, c1, c2] [s0, s1, s2]
        = .ok ((match self.order with
                | .ROW_MAJOR => c0 + s0 * c1 + s0 * s1 * c2
                | .COLUMN_MAJOR => c2 + s2 * c1 + s2 * s1 * c0) % 4294967296)) ∧
    (bound (data235 .ROW_MAJOR) >>= fun s => GetIndex s [1, 2, 4] [2, 3, 5]) = .ok 29 ∧
    (bound (data235 .COLUMN_MAJOR) >>= fun s => GetIndex s [1, 2, 4] [2, 3, 5]) = .ok 29 := by
  have general : ∀ (self : G4VoxelArrayBase) (indices shape : List Nat),
      1 ≤ indices.length → indices.length ≤ shape.length →
      indices.length < 4294967296 → (∀ c ∈ indices, c < 4294967296) →
      GetIndex self indices shape
        = .ok ((match self.order with
                | .ROW_MAJOR => rowMajorSum indices shape
                | .COLUMN_MAJOR => colMajorSum indices shape) % 4294967296) := by
    intro self indices shape h1 hn hn32 hc
    cases ho : self.order with
    | ROW_MAJOR => exact GetIndex_row self indices shape ho h1 hn hn32 hc
    | COLUMN_MAJOR => exact GetIndex_col self indices shape ho h1 hn hn32 hc
  refine ⟨general, ?_, by decide, by decide⟩
  intro self c0 c1 c2 s0 s1 s2 h0 h1 h2
  have hc : ∀ c ∈ [c0, c1, c2], c < 4294967296 := by
    intro c hmem
    simp only [List.mem_cons, List.mem_singleton, List.not_mem_nil, or_false] at hmem
    rcases hmem with rfl | rfl | rfl <;> assumption
  rw [general self [c0, c1, c2] [s0, s1, s2] (by simp) (by simp) (by simp) hc]
  cases self.order with
  | ROW_MAJOR => simp only [rowMajorSum_three]
  | COLUMN_MAJOR => simp only [colMajorSum_three]

/-- C2, at a concrete input: four axes, shape (2,3,5,7), indices (1,2,4,6). -/
theorem GetIndex_closed_form_witness :
    GetIndex { newBase with order := .ROW_MAJOR } [1, 2, 4, 6] [2, 3, 5, 7]
      = .ok ((match ({ newBase with order := .ROW_MAJOR } : G4VoxelArrayBase).order with
              | .ROW_MAJOR => rowMajorSum [1, 2, 4, 6] [2, 3, 5, 7]
              | .COLUMN_MAJOR => colMajorSum [1, 2, 4, 6] [2, 3, 5, 7]) % 4294967296) :=
  GetIndex_closed_form.1 _ [1, 2, 4, 6] [2, 3, 5, 7] (by decide) (by decide) (by decide)
    (by decide)

/-- C3, as stated, fails: on a buffer of shape (2,3,5), after `CropAxis(0,1,0)` and
then `Crop(false)`, neither crop nor merge is active and `GetShape()` is
(1,3,5), not the raw shape. -/
theorem GetShape_not_raw_after_crop_off :
    ¬ (∀ (data : G4VoxelData) (s : G4VoxelArrayBase), Reachable data s →
        GetShape s = if IsMerged s then s.merged_shape
                     else if IsCropped s then s.cropped_shape else s.shape) := by
  intro h
  have hreach : Reachable (data235 .ROW_MAJOR)
      (viewOf (data235 .ROW_MAJOR) false [0, 1, 0, 3, 0, 5] [1, 3, 5] false [1, 1, 1] [2, 3, 5]) :=
    ReachableVia.step _ _ (Op.cropBool false)
      (ReachableVia.step _ _ (Op.cropAxis 0 1 0)
        (ReachableVia.bind newBase _ (by decide) (by decide) rfl)
        trivial (by decide) rfl)
      trivial (by decide) rfl
  have := h _ _ hreach
  revert this
  decide

/-- C3, amended: in every state reachable from a fresh bind by crop and merge
calls other than `Crop(false)`, `GetShape()` is the merged shape if merge is
active, otherwise the cropped shape if crop is active, otherwise the raw
shape; and in every state at all `GetShape()` is the merged shape if merge is
active and the stored cropped shape otherwise, whatever the crop flag. -/
theorem GetShape_reported (data : G4VoxelData) (s : G4VoxelArrayBase) :
    (ReachableVia (fun op => op ≠ Op.cropBool false) data s →
      GetShape s = if IsMerged s then s.merged_shape
                   else if IsCropped s then s.cropped_shape else s.shape) ∧
    (Reachable data s →
      GetShape s = if IsMerged s then s.merged_shape else s.cropped_shape) := by
  constructor
  · intro h
    unfold GetShape IsMerged IsCropped
    cases hm : s.merged with
    | true => simp
    | false =>
      cases hc : s.cropped with
      | true => simp
      | false => simpa using cropped_shape_of_not_cropped h hc
  · intro _
    rfl

/-- C3, amended, at a concrete state: shape (2,3,5), `CropAxis(0,1,0)` then
`ClearCrop()`. -/
theorem GetShape_reported_witness :
    GetShape (viewOf (data235 .ROW_MAJOR) false [0, 2, 0, 3, 0, 5] [2, 3, 5] false
      [1, 1, 1] [2, 3, 5]) = [2, 3, 5] :=
  (GetShape_reported (data235 .ROW_MAJOR) _).1
    (ReachableVia.step _ _ Op.clearCrop
      (ReachableVia.step _ _ (Op.cropAxis 0 1 0)
        (ReachableVia.bind newBase _ (by decide) (by decide) rfl)
        (by decide) (by decide) rfl)
      (by decide) (by decide) rfl)

/-- C4, as stated, fails: on a buffer of shape (10,10,10), after `MergeAxis(2,0)`
and then `CropAxis(0,4,0)`, merge is active and on axis 0 the merged extent is
5 while the cropped extent 4 divided by the block size 2 is 2. -/
theorem merged_shape_stale_after_crop :
    ¬ (∀ (data : G4VoxelData) (s : G4VoxelArrayBase), Reachable data s →
        IsMerged s = true → ∀ a, a < 3 →
          s.merged_shape.getD a 0 = s.cropped_shape.getD a 0 / s.merge_size.getD a 0) := by
  intro h
  have hreach : Reachable data101010
      (viewOf data101010 true [0, 4, 0, 10, 0, 10] [4, 10, 10] true [2, 1, 1] [5, 10, 10]) :=
    ReachableVia.step _ _ (Op.cropAxis 0 4 0)
      (ReachableVia.step _ _ (Op.mergeAxis 2 0)
        (ReachableVia.bind newBase _ (by decide) (by decide) rfl)
        trivial (by decide) rfl)
      trivial (by decide) rfl
  have := h _ _ hreach rfl 0 (by decide)
  revert this
  decide

/-- C4, amended: on axis `a`, `merged_shape[a] = cropped_shape[a] / merge_size[a]`
(truncating) in every state reachable from a fresh bind in which the crop
window of axis `a` has not been changed (`CropAxis` on `a`, `Crop` with six
bounds, `ClearCrop`) since the bind or since the last `MergeAxis` on `a`
(`Merge` and `ClearMerge` included). -/
theorem merged_shape_in_sync (data : G4VoxelData) (s : G4VoxelArrayBase) (a : Nat)
    (ha : a < 3) (h : InSync data a s) :
    s.merged_shape.getD a 0 = s.cropped_shape.getD a 0 / s.merge_size.getD a 0 :=
  Sync_of_InSync ha h

/-- C4, amended, at a concrete state: shape (10,10,10), `CropAxis(0,4,0)` then
`MergeAxis(2,0)` then `CropAxis(1,9,1)`; axis 0 still has 4 / 2 = 2. -/
theorem merged_shape_in_sync_witness :
    (viewOf data101010 true [0, 4, 1, 9, 0, 10] [4, 8, 10] true [2, 1, 1]
        [2, 10, 10]).merged_shape.getD 0 0
      = (viewOf data101010 true [0, 4, 1, 9, 0, 10] [4, 8, 10] true [2, 1, 1]
          [2, 10, 10]).cropped_shape.getD 0 0
        / (viewOf data101010 true [0, 4, 1, 9, 0, 10] [4, 8, 10] true [2, 1, 1]
            [2, 10, 10]).merge_size.getD 0 0 :=
  merged_shape_in_sync data101010 _ 0 (by decide)
    (InSync.keep _ _ (Op.cropAxis 1 9 1)
      (InSync.remerge _ _ (Op.mergeAxis 2 0)
        (ReachableVia.step _ _ (Op.cropAxis 0 4 0)
          (ReachableVia.bind newBase _ (by decide) (by decide) rfl)
          trivial (by decide) rfl)
        rfl (by decide) rfl)
      rfl (by decide) rfl)

/-- C5, as stated, fails: on a buffer of shape (10,10,10), after `MergeAxis(2,0)`
the call `ClearCrop()` leaves merge active and `GetShape()` is (5,10,10), not
the raw shape. -/
theorem ClearCrop_shape_under_merge :
    ¬ (∀ (data : G4VoxelData) (s s1 : G4VoxelArrayBase), Reachable data s →
        ClearCrop s = .ok s1 → GetShape s1 = s1.shape ∧ IsCropped s1 = false) := by
  intro h
  have hreach : Reachable data101010
      (viewOf data101010 false [0, 10, 0, 10, 0, 10] [10, 10, 10] true [2, 1, 1]
        [5, 10, 10]) :=
    ReachableVia.step _ _ (Op.mergeAxis 2 0)
      (ReachableVia.bind newBase _ (by decide) (by decide) rfl)
      trivial (by decide) rfl
  have := (h _ _ _ hreach rfl).1
  revert this
  decide

/-- C5, amended: in every state reachable from a fresh bind, `ClearCrop()` has a
result in which `IsCropped()` is false, the crop window is the full raw
extent and the cropped shape is the raw shape; `GetShape()` is then the raw
shape when merge is inactive, and remains the merged shape when merge is
active (the merge flag and merged shape are not touched). -/
theorem ClearCrop_resets (data : G4VoxelData) (s : G4VoxelArrayBase)
    (h : Reachable data s) :
    ∃ s1, ClearCrop s = .ok s1 ∧ IsCropped s1 = false ∧ s1.shape = data.shape ∧
      s1.cropped_shape = data.shape ∧
      GetCropLimit s1
        = [0, data.shape.getD 0 0, 0, data.shape.getD 1 0, 0, data.shape.getD 2 0] ∧
      IsMerged s1 = IsMerged s ∧
      (IsMerged s = false → GetShape s1 = data.shape) ∧
      (IsMerged s = true → GetShape s1 = s.merged_shape) := by
  have hI := Inv_of_ReachableVia h
  refine ⟨_, ClearCrop_eq hI, rfl, hI.shape_eq, hI.shape_eq, ?_, rfl, ?_, ?_⟩
  · show [0, s.shape.getD 0 0, 0, s.shape.getD 1 0, 0, s.shape.getD 2 0] = _
    rw [hI.shape_eq]
  · intro hm
    have hm2 : s.merged = false := hm
    simp [GetShape, hm2, hI.shape_eq]
  · intro hm
    have hm2 : s.merged = true := hm
    simp [GetShape, hm2]

/-- C5, amended, at a concrete state: shape (2,3,5) after `CropAxis(0,1,0)`. -/
theorem ClearCrop_resets_witness :
    ∃ s1, ClearCrop (viewOf (data235 .ROW_MAJOR) true [0, 1, 0, 3, 0, 5] [1, 3, 5] false
        [1, 1, 1] [2, 3, 5]) = .ok s1 ∧ IsCropped s1 = false ∧ GetShape s1 = [2, 3, 5] := by
  obtain ⟨s1, h1, h2, -, -, -, -, h3, -⟩ := ClearCrop_resets (data235 .ROW_MAJOR)
    (viewOf (data235 .ROW_MAJOR) true [0, 1, 0, 3, 0, 5] [1, 3, 5] false [1, 1, 1] [2, 3, 5])
    (ReachableVia.step _ _ (Op.cropAxis 0 1 0)
      (ReachableVia.bind newBase _ (by decide) (by decide) rfl)
      trivial (by decide) rfl)
  exact ⟨s1, h1, h2, h3 rfl⟩

/-- C6: for every block size `k > 0` and every axis `a` that the accessor has
(`a < 3` once bound), `MergeAxis(k, a)` has a result, whether or not `k`
divides the cropped extent: `merged_shape[a] = cropped_shape[a] / k`
(truncating), `merge_size[a] = k`, `IsMerged()` is true, and the other axes of
the merged shape and block size, the crop window, the cropped shape and the
crop flag are unchanged. -/
theorem MergeAxis_result (s : G4VoxelArrayBase) (k a : Nat) (hk : 0 < k)
    (hcs : a < s.cropped_shape.length) (hms : a < s.merged_shape.length)
    (hmz : a < s.merge_size.length) :
    ∃ s1, MergeAxis k a s = .ok s1 ∧
      s1.merged_shape.getD a 0 = s.cropped_shape.getD a 0 / k ∧
      s1.merge_size.getD a 0 = k ∧ IsMerged s1 = true ∧
      (∀ b, b ≠ a → s1.merged_shape.getD b 0 = s.merged_shape.getD b 0 ∧
        s1.merge_size.getD b 0 = s.merge_size.getD b 0) ∧
      s1.merged_shape.length = s.merged_shape.length ∧
      s1.merge_size.length = s.merge_size.length ∧
      GetCropLimit s1 = GetCropLimit s ∧ s1.cropped_shape = s.cropped_shape ∧
      IsCropped s1 = IsCropped s := by
  refine ⟨_, MergeAxis_eq hk hcs hms hmz, getD_set_eq hms, getD_set_eq hmz, rfl, ?_,
    List.length_set _ _ _, List.length_set _ _ _, rfl, rfl, rfl⟩
  intro b hb
  exact ⟨getD_set_ne (Ne.symm hb), getD_set_ne (Ne.symm hb)⟩

/-- C6 at a concrete state: cropped shape (10,11,4); `MergeAxis(2,0)` on the
extent 10 gives 5 and `MergeAxis(2,1)` on the extent 11 gives 5. -/
theorem MergeAxis_result_witness :
    (∃ s1, MergeAxis 2 0 (viewOf data101010 true [0, 10, 0, 11, 0, 4] [10, 11, 4] false
        [1, 1, 1] [10, 11, 4]) = .ok s1 ∧ s1.merged_shape.getD 0 0 = 5) ∧
    (∃ s1, MergeAxis 2 1 (viewOf data101010 true [0, 10, 0, 11, 0, 4] [10, 11, 4] false
        [1, 1, 1] [10, 11, 4]) = .ok s1 ∧ s1.merged_shape.getD 1 0 = 5) := by
  constructor
  · obtain ⟨s1, h1, h2, -⟩ := MergeAxis_result
      (viewOf data101010 true [0, 10, 0, 11, 0, 4] [10, 11, 4] false [1, 1, 1] [10, 11, 4])
      2 0 (by decide) (by decide) (by decide) (by decide)
    exact ⟨s1, h1, h2⟩
  · obtain ⟨s1, h1, h2, -⟩ := MergeAxis_result
      (viewOf data101010 true [0, 10, 0, 11, 0, 4] [10, 11, 4] false [1, 1, 1] [10, 11, 4])
      2 1 (by decide) (by decide) (by decide) (by decide)
    exact ⟨s1, h1, h2⟩

/-- C7: in every state reachable from a fresh bind, for `unsigned int` bounds with
`min <= max` on each axis, `Crop(xmin,xmax,ymin,ymax,zmin,zmax)` has a result
in which `GetCropLimit()` is exactly the six bounds as given, `IsCropped()` is
true, the cropped shape is `(xmax-xmin, ymax-ymin, zmax-zmin)`, the merge flag
is unchanged, and with merge inactive `GetShape()` is that cropped shape. -/
theorem Crop_result (data : G4VoxelData) (s : G4VoxelArrayBase)
    (xmin xmax ymin ymax zmin zmax : Nat) (h : Reachable data s)
    (hx : xmin ≤ xmax) (hy : ymin ≤ ymax) (hz : zmin ≤ zmax)
    (hx32 : xmax < 4294967296) (hy32 : ymax < 4294967296) (hz32 : zmax < 4294967296) :
    ∃ s1, Crop xmin xmax ymin ymax zmin zmax s = .ok s1 ∧
      GetCropLimit s1 = [xmin, xmax, ymin, ymax, zmin, zmax] ∧
      IsCropped s1 = true ∧
      s1.cropped_shape = [xmax - xmin, ymax - ymin, zmax - zmin] ∧
      IsMerged s1 = IsMerged s ∧
      (IsMerged s1 = false → GetShape s1 = [xmax - xmin, ymax - ymin, zmax - zmin]) := by
  have hI := Inv_of_ReachableVia h
  have ex : wrap (xmax + 4294967296 - xmin) = xmax - xmin := by
    unfold wrap; omega
  have ey : wrap (ymax + 4294967296 - ymin) = ymax - ymin := by
    unfold wrap; omega
  have ez : wrap (zmax + 4294967296 - zmin) = zmax - zmin := by
    unfold wrap; omega
  refine ⟨_, Crop_eq hI.cs_len hI.cl_len, rfl, rfl, ?_, rfl, ?_⟩
  · show [wrap _, wrap _, wrap _] = _
    rw [ex, ey, ez]
  · intro hm
    have hm2 : s.merged = false := hm
    simp [GetShape, hm2, ex, ey, ez]

/-- C7 at a concrete state: shape (2,3,5), `Crop(0,100,1,3,2,5)`: the bound 100
beyond the raw extent 2 is stored as given. -/
theorem Crop_result_witness :
    ∃ s1, Crop 0 100 1 3 2 5 (viewOf (data235 .ROW_MAJOR) false [0, 2, 0, 3, 0, 5] [2, 3, 5]
        false [1, 1, 1] [2, 3, 5]) = .ok s1 ∧
      GetCropLimit s1 = [0, 100, 1, 3, 2, 5] ∧ GetShape s1 = [100, 2, 3] := by
  obtain ⟨s1, h1, h2, -, -, h4, h5⟩ := Crop_result (data235 .ROW_MAJOR)
    (viewOf (data235 .ROW_MAJOR) false [0, 2, 0, 3, 0, 5] [2, 3, 5] false [1, 1, 1] [2, 3, 5])
    0 100 1 3 2 5
    (ReachableVia.bind newBase _ (by decide) (by decide) rfl)
    (by decide) (by decide) (by decide) (by decide) (by decide) (by decide)
  exact ⟨s1, h1, h2, h5 (by rw [h4]; rfl)⟩

/-- C8, as stated, fails: on the `ROW_MAJOR` buffer of shape (2,3,5) the
coordinate (2,0,0), whose `x` is outside the extent 2, is flattened to the
index 2 without any error, `GetValue(2,0,0)` returns the element of cell
(0,1,0), `SetValue` overwrites that cell, and `GetIndex(30)` returns the flat
index 30, one past the buffer, as it is. -/
theorem GetIndex_out_of_range_unreported :
    ¬ (∀ (v : G4VoxelArray Int) (x y z : Nat),
        (v.base.shape.getD 0 0 ≤ x ∨ v.base.shape.getD 1 0 ≤ y ∨ v.base.shape.getD 2 0 ≤ z) →
        (∀ i, GetIndex_xyz v.base x y z ≠ .ok i) ∧ (∀ t, GetValue_xyz v x y z ≠ .ok t) ∧
        (∀ t w, SetValue t x y z v ≠ .ok w)) ∧
    GetIndex_xyz array235.base 2 0 0 = .ok 2 ∧
    GetValue_xyz array235 2 0 0 = .ok 20 ∧
    GetValue_xyz array235 0 1 0 = .ok 20 ∧
    GetIndex_flat array235.base 30 = 30 := by
  refine ⟨?_, by decide, by decide, by decide, rfl⟩
  intro h
  exact (h array235 2 0 0 (Or.inl (by decide))).1 2 (by decide)

/-- C8, amended: no range check is made. On an accessor reachable from a fresh
bind, for every `unsigned int` coordinate, in range or not, `GetIndex(x,y,z)`
returns the flattening formula of the order modulo `2^32` and `GetIndex(i)`
returns `i`; `GetValue` and `SetValue` then read and write the buffer element
at that index whenever the index is below the buffer size, whichever
coordinate produced it. -/
theorem access_unchecked {T : Type} (data : G4VoxelData) (v : G4VoxelArray T)
    (x y z : Nat) (h : Reachable data v.base)
    (hx : x < 4294967296) (hy : y < 4294967296) (hz : z < 4294967296) :
    GetIndex_xyz v.base x y z
      = .ok (flatIndex v.base.order x y z (data.shape.getD 0 0) (data.shape.getD 1 0)
          (data.shape.getD 2 0)) ∧
    (∀ i, GetIndex_flat v.base i = i) ∧
    (∀ i t, GetIndex_xyz v.base x y z = .ok i → v.array[i]? = some t →
      GetValue_xyz v x y z = .ok t) ∧
    (∀ i t, GetIndex_xyz v.base x y z = .ok i → i < v.array.length →
      SetValue t x y z v = .ok { v with array := v.array.set i t }) := by
  have hI := Inv_of_ReachableVia h
  obtain ⟨a, b, c, hs⟩ := list_len3 hI.shape_len
  have hd : data.shape = [a, b, c] := by rw [← hI.shape_eq, hs]
  refine ⟨?_, fun _ => rfl, ?_, ?_⟩
  · unfold GetIndex_xyz GetIndex_xyz_shape
    rw [hs, (GetIndex_three v.base x y z a b c hx hy hz), hd]
    cases v.base.order <;> rfl
  · intro i t hi ht
    unfold GetValue_xyz
    rw [hi]
    show vget v.array i = _
    unfold vget
    rw [ht]
  · intro i t hi hlt
    unfold SetValue
    rw [hi]
    show (vset v.array i t >>= _) = _
    unfold vset
    rw [if_pos hlt]
    rfl

/-- C8, amended, at a concrete input: shape (2,3,5), the out-of-range
coordinate (2,0,0). -/
theorem access_unchecked_witness :
    GetIndex_xyz array235.base 2 0 0 = .ok 2 ∧ GetValue_xyz array235 2 0 0 = .ok 20 := by
  obtain ⟨h1, -, h3, -⟩ := access_unchecked (data235 .ROW_MAJOR) array235 2 0 0
    (ReachableVia.bind newBase _ (by decide) (by decide) rfl)
    (by decide) (by decide) (by decide)
  exact ⟨h1, h3 2 20 h1 (by decide)⟩

/-- C9 fails on the code for values that are not positive: `RoundValue(-7, 5)`
is -10, at distance 3 from -7, more than half a step, while the multiple -5 is
at distance 2; `RoundValue(0, 5)` is -5 and `RoundValue(-5, 5)` is -10, so
even a multiple of the step is moved. -/
theorem RoundValue_negative_not_nearest :
    RoundValue (-7 : ℚ) 5 = -10 ∧
    ¬ (|RoundValue (-7 : ℚ) 5 - (-7)| ≤ 5 / 2) ∧
    |(-5 : ℚ) - (-7)| ≤ 5 / 2 ∧
    RoundValue (0 : ℚ) 5 = -5 ∧
    RoundValue (-5 : ℚ) 5 = -10 := by
  have h7 : RoundValue (-7 : ℚ) 5 = -10 := by
    have h : ⌊((-7 : ℚ) - 5 / 2) / 5⌋ = -2 := by
      rw [Int.floor_eq_iff]; norm_num
    unfold RoundValue
    rw [if_neg (by norm_num), h]
    norm_num
  have h0 : RoundValue (0 : ℚ) 5 = -5 := by
    have h : ⌊((0 : ℚ) - 5 / 2) / 5⌋ = -1 := by
      rw [Int.floor_eq_iff]; norm_num
    unfold RoundValue
    rw [if_neg (by norm_num), h]
    norm_num
  have h5 : RoundValue (-5 : ℚ) 5 = -10 := by
    have h : ⌊((-5 : ℚ) - 5 / 2) / 5⌋ = -2 := by
      rw [Int.floor_eq_iff]; norm_num
    unfold RoundValue
    rw [if_neg (by norm_num), h]
    norm_num
  refine ⟨h7, ?_, ?_, h0, h5⟩
  · rw [h7]
    norm_num [abs_le]
  · norm_num [abs_le]

/-- C10, as stated, fails for a signed-integer `T`: with `T = int` the run of
`RoundValue(-7, 5)` is defined and returns `((-7 - 2) / 5) * 5 = -5` under
truncating division, while the exact formula `floor((-7 - 5/2)/5)*5` is -10. -/
theorem RoundValue_int_not_floor_formula :
    ¬ (∀ (val step r : ℤ), inRange 32 val → inRange 32 step → 0 < step → val < 0 →
        RoundValue_signed 32 val step = .ok r →
        (r : ℚ) = (⌊((val : ℚ) - (step : ℚ) / 2) / (step : ℚ)⌋ : ℚ) * (step : ℚ)) ∧
    RoundValue_signed 32 (-7) 5 = .ok (-5) ∧
    RoundValue_signed 32 (-7) 5 ≠ .ok (-10) := by
  refine ⟨?_, by decide, by decide⟩
  intro h
  have h1 := h (-7) 5 (-5) (by decide) (by decide) (by decide) (by decide) (by decide)
  have hf : ⌊(((-7 : ℤ) : ℚ) - ((5 : ℤ) : ℚ) / 2) / ((5 : ℤ) : ℚ)⌋ = -2 := by
    rw [Int.floor_eq_iff]; norm_num
  rw [hf] at h1
  norm_num at h1

/-- C10, amended: for a real-valued `T` (exact arithmetic), `RoundValue(val, step)`
is `floor((val + step/2)/step)*step` when `val > 0` and
`floor((val - step/2)/step)*step` when `val < 0`, so `RoundValue(7,5) = 5` and
`RoundValue(-7,5) = -10`. For a signed-integer `T` of at most 32 bits, with
in-range `val` and `step > 0`: a defined run with `val > 0` returns the exact
`floor((val + step/2)/step)*step`, and the run is defined when `val + step/2`
does not overflow `int` and the result is a value of `T`; a defined run with
`val < 0` returns minus the exact `floor((-val + step/2)/step)*step`, not the
exact floor formula, and is defined under the like conditions; so for `int`
`RoundValue(7,5) = 5` and `RoundValue(-7,5) = -5`, while
`RoundValue(2147483647, 2)` overflows and a step 0 divides by zero. -/
theorem RoundValue_formula :
    (∀ (T : Type) [LinearOrderedField T] [FloorRing T] (val step : T),
      (0 < val → RoundValue val step = (⌊(val + step / 2) / step⌋ : T) * step) ∧
      (val < 0 → RoundValue val step = (⌊(val - step / 2) / step⌋ : T) * step)) ∧
    RoundValue (7 : ℚ) 5 = 5 ∧ RoundValue (-7 : ℚ) 5 = -10 ∧
    (∀ (bits : Nat) (val step r : ℤ), bits ≤ 32 → inRange bits val → inRange bits step →
      0 < val → 0 < step → RoundValue_signed bits val step = .ok r →
      (r : ℚ) = (⌊((val : ℚ) + (step : ℚ) / 2) / (step : ℚ)⌋ : ℚ) * (step : ℚ)) ∧
    (∀ (bits : Nat) (val step : ℤ), bits ≤ 32 → inRange bits val → inRange bits step →
      0 < val → 0 < step → inRange 32 (val + Int.tdiv step 2) →
      inRange bits (Int.tdiv (val + Int.tdiv step 2) step * step) →
      RoundValue_signed bits val step = .ok (Int.tdiv (val + Int.tdiv step 2) step * step)) ∧
    (∀ (bits : Nat) (val step r : ℤ), bits ≤ 32 → inRange bits val → inRange bits step →
      val < 0 → 0 < step → RoundValue_signed bits val step = .ok r →
      (r : ℚ) = -((⌊((-val : ℚ) + (step : ℚ) / 2) / (step : ℚ)⌋ : ℚ) * (step : ℚ))) ∧
    (∀ (bits : Nat) (val step : ℤ), bits ≤ 32 → inRange bits val → inRange bits step →
      val < 0 → 0 < step → inRange 32 (val - Int.tdiv step 2) →
      inRange bits (Int.tdiv (val - Int.tdiv step 2) step * step) →
      RoundValue_signed bits val step = .ok (Int.tdiv (val - Int.tdiv step 2) step * step)) ∧
    RoundValue_signed 32 7 5 = .ok 5 ∧ RoundValue_signed 32 (-7) 5 = .ok (-5) ∧
    RoundValue_signed 32 2147483647 2 = .error .overflow ∧
    RoundValue_signed 32 7 0 = .error .divideByZero := by
  refine ⟨?_, ?_, ?_, ?_, ?_, ?_, ?_, by decide, by decide, by decide, by decide⟩
  · intro T _ _ val step
    constructor
    · intro hv
      unfold RoundValue
      rw [if_pos hv]
    · intro hv
      unfold RoundValue
      rw [if_neg (not_lt.mpr (le_of_lt hv))]
  · have h : ⌊((7 : ℚ) + 5 / 2) / 5⌋ = 1 := by
      rw [Int.floor_eq_iff]; norm_num
    unfold RoundValue
    rw [if_pos (by norm_num), h]
    norm_num
  · have h : ⌊((-7 : ℚ) - 5 / 2) / 5⌋ = -2 := by
      rw [Int.floor_eq_iff]; norm_num
    unfold RoundValue
    rw [if_neg (by norm_num), h]
    norm_num
  · intro bits val step r _ _ _ hv hs h
    obtain ⟨hr, -, -⟩ := RoundValue_signed_value h
    rw [hr]
    exact RoundValue_int_pos_eq val step hv hs
  · intro bits val step _ _ _ hv hs h1 h2
    have hpos : val > 0 := hv
    have hh0 : 0 ≤ Int.tdiv step 2 := Int.tdiv_nonneg (le_of_lt hs) (by decide)
    have hq := (tdiv_between (val + Int.tdiv step 2) hs).1 (by omega)
    have e := RoundValue_signed_defined bits val step
      (ne_of_gt hs) (by rw [if_pos hpos]; exact h1)
      (by rw [if_pos hpos]; exact inRange_between h1 (Or.inl hq))
      (by rw [if_pos hpos]; exact h2)
    rw [if_pos hpos] at e
    exact e
  · intro bits val step r _ _ _ hv hs h
    obtain ⟨hr, -, -⟩ := RoundValue_signed_value h
    rw [hr, RoundValue_int_neg_eq val step hv]
    have hp := RoundValue_int_pos_eq (-val) step (by omega) hs
    push_cast at hp ⊢
    rw [hp]
  · intro bits val step _ _ _ hv hs h1 h2
    have hneg : ¬ val > 0 := by omega
    have hh0 : 0 ≤ Int.tdiv step 2 := Int.tdiv_nonneg (le_of_lt hs) (by decide)
    have hq := (tdiv_between (val - Int.tdiv step 2) hs).2 (by omega)
    have e := RoundValue_signed_defined bits val step
      (ne_of_gt hs) (by rw [if_neg hneg]; exact h1)
      (by rw [if_neg hneg]; exact inRange_between h1 (Or.inr hq))
      (by rw [if_neg hneg]; exact h2)
    rw [if_neg hneg] at e
    exact e

/-- C10, amended, at concrete inputs: a real value 12 with step 5, and the `int`
value 8 with step 5, whose run is defined and returns 10. -/
theorem RoundValue_formula_witness :
    RoundValue (12 : ℚ) 5 = (⌊((12 : ℚ) + 5 / 2) / 5⌋ : ℚ) * 5 ∧
    RoundValue_signed 32 8 5 = .ok (Int.tdiv (8 + Int.tdiv 5 2) 5 * 5) ∧
    (((10 : ℤ) : ℚ))
      = (⌊(((8 : ℤ) : ℚ) + ((5 : ℤ) : ℚ) / 2) / ((5 : ℤ) : ℚ)⌋ : ℚ) * ((5 : ℤ) : ℚ) :=
  ⟨(RoundValue_formula.1 ℚ 12 5).1 (by norm_num),
   RoundValue_formula.2.2.2.2.1 32 8 5 (by decide) (by decide) (by decide) (by decide)
     (by decide) (by decide) (by decide),
   RoundValue_formula.2.2.2.1 32 8 5 10 (by decide) (by decide) (by decide) (by decide)
     (by decide) (by decide)⟩

/-- C11: for bounds `lower <= upper`, `RoundValue(val, lower, upper, step)` is
`min(max(RoundValue(val, step), lower), upper)`: it lies in `[lower, upper]` and
is `RoundValue(val, step)` whenever that value already lies in
`[lower, upper]`; for a real-valued `T` and for a signed-integer `T`. -/
theorem RoundValue_bounded_clamps :
    (∀ (T : Type) [LinearOrderedField T] [FloorRing T] (val lower upper step : T),
      lower ≤ upper →
      RoundValue_bounded val lower upper step
          = min (max (RoundValue val step) lower) upper ∧
        lower ≤ RoundValue_bounded val lower upper step ∧
        RoundValue_bounded val lower upper step ≤ upper ∧
        (lower ≤ RoundValue val step → RoundValue val step ≤ upper →
          RoundValue_bounded val lower upper step = RoundValue val step)) ∧
    (∀ (val lower upper step : ℤ), lower ≤ upper →
      RoundValue_int_bounded val lower upper step
          = min (max (RoundValue_int val step) lower) upper ∧
        lower ≤ RoundValue_int_bounded val lower upper step ∧
        RoundValue_int_bounded val lower upper step ≤ upper ∧
        (lower ≤ RoundValue_int val step → RoundValue_int val step ≤ upper →
          RoundValue_int_bounded val lower upper step = RoundValue_int val step)) := by
  constructor
  · intro T _ _ val lower upper step h
    have e : RoundValue_bounded val lower upper step
        = min (max (RoundValue val step) lower) upper :=
      clamp_eq (RoundValue val step) lower upper h
    refine ⟨e, ?_, ?_, ?_⟩
    · rw [e]; exact le_min (le_max_right _ _) h
    · rw [e]; exact min_le_right _ _
    · intro h1 h2
      rw [e, max_eq_left h1, min_eq_left h2]
  · intro val lower upper step h
    have e : RoundValue_int_bounded val lower upper step
        = min (max (RoundValue_int val step) lower) upper :=
      clamp_eq (RoundValue_int val step) lower upper h
    refine ⟨e, ?_, ?_, ?_⟩
    · rw [e]; exact le_min (le_max_right _ _) h
    · rw [e]; exact min_le_right _ _
    · intro h1 h2
      rw [e, max_eq_left h1, min_eq_left h2]

/-- C11 at concrete inputs: the real value 12 with step 5 clamped to `[0, 8]`, and
the integer value -7 with step 5 clamped to `[-3, 3]`. -/
theorem RoundValue_bounded_clamps_witness :
    RoundValue_bounded (12 : ℚ) 0 8 5 = min (max (RoundValue (12 : ℚ) 5) 0) 8 ∧
    RoundValue_int_bounded (-7) (-3) 3 5 = min (max (RoundValue_int (-7) 5) (-3)) 3 :=
  ⟨(RoundValue_bounded_clamps.1 ℚ 12 0 8 5 (by norm_num)).1,
   (RoundValue_bounded_clamps.2 (-7) (-3) 3 5 (by decide)).1⟩

/-- C12: on a non-empty buffer, in every crop/merge state of the accessor,
`GetMaxValue()` returns an element of the buffer that is `>=` every element of
the whole buffer and `GetMinValue()` an element that is `<=` every element;
the crop window plays no part. On the buffer [1,5,2,9,0] of shape (5,1,1)
with the crop window of `x` set to [1,3) they are 9 and 0. -/
theorem GetMaxValue_GetMinValue_whole_buffer :
    (∀ (T : Type) [LinearOrder T] (v : G4VoxelArray T), v.array ≠ [] →
      (∃ m, GetMaxValue v = .ok m ∧ m ∈ v.array ∧ ∀ x ∈ v.array, x ≤ m) ∧
      (∃ m, GetMinValue v = .ok m ∧ m ∈ v.array ∧ ∀ x ∈ v.array, m ≤ x)) ∧
    (∀ (T : Type) [LinearOrder T] (b1 b2 : G4VoxelArrayBase) (array : List T),
      GetMaxValue { base := b1, array := array } = GetMaxValue { base := b2, array := array } ∧
      GetMinValue { base := b1, array := array }
        = GetMinValue { base := b2, array := array }) ∧
    ((bound data511 >>= CropAxis 1 3 0) >>= fun b =>
        GetMaxValue { base := b, array := [1, 5, 2, 9, (0 : Int)] }) = .ok 9 ∧
    ((bound data511 >>= CropAxis 1 3 0) >>= fun b =>
        GetMinValue { base := b, array := [1, 5, 2, 9, (0 : Int)] }) = .ok 0 := by
  refine ⟨?_, ?_, by decide, by decide⟩
  · intro T _ v hne
    obtain ⟨base, array⟩ := v
    cases array with
    | nil => exact absurd rfl hne
    | cons a xs =>
      constructor
      · refine ⟨max_element a xs, rfl, max_element_mem xs a, ?_⟩
        intro x hx
        obtain ⟨h1, h2⟩ := le_max_element xs a
        rcases List.mem_cons.mp hx with h | h
        · rw [h]; exact h1
        · exact h2 x h
      · refine ⟨min_element a xs, rfl, min_element_mem xs a, ?_⟩
        intro x hx
        obtain ⟨h1, h2⟩ := min_element_le xs a
        rcases List.mem_cons.mp hx with h | h
        · rw [h]; exact h1
        · exact h2 x h
  · intro T _ b1 b2 array
    exact ⟨rfl, rfl⟩

/-- C12 at a concrete input: the buffer [1,5,2,9,0] under a cropped accessor. -/
theorem GetMaxValue_GetMinValue_whole_buffer_witness :
    (∃ m, GetMaxValue cropped511 = .ok m ∧ m = 9) ∧
    (∃ m, GetMinValue cropped511 = .ok m ∧ m = 0) := by
  obtain ⟨⟨m1, h1, -, -⟩, ⟨m2, h2, -, -⟩⟩ := GetMaxValue_GetMinValue_whole_buffer.1 Int cropped511 (by decide)
  refine ⟨⟨m1, h1, ?_⟩, ⟨m2, h2, ?_⟩⟩
  · have e : GetMaxValue cropped511 = .ok 9 := by decide
    rw [e] at h1
    exact (Except.ok.inj h1).symm
  · have e : GetMinValue cropped511 = .ok 0 := by decide
    rw [e] at h2
    exact (Except.ok.inj h2).symm

/-- C13: on a buffer of `s0*s1*s2 < 2^32` elements with shape `(s0,s1,s2)`, under
either storage order and in every crop/merge state, `SetValue(v, x, y, z)` at an
in-range coordinate has a result after which `GetValue(x, y, z)` is `v` and
`GetValue` at every other in-range coordinate is what it was. -/
theorem SetValue_GetValue (T : Type) (v : G4VoxelArray T) (val : T)
    (x y z s0 s1 s2 : Nat) (hs : v.base.shape = [s0, s1, s2])
    (hlen : v.array.length = s0 * s1 * s2) (hN : s0 * s1 * s2 < 4294967296)
    (hx : x < s0) (hy : y < s1) (hz : z < s2) :
    ∃ v1, SetValue val x y z v = .ok v1 ∧ v1.base = v.base ∧
      GetValue_xyz v1 x y z = .ok val ∧
      ∀ x1 y1 z1, x1 < s0 → y1 < s1 → z1 < s2 → (x1, y1, z1) ≠ (x, y, z) →
        GetValue_xyz v1 x1 y1 z1 = GetValue_xyz v x1 y1 z1 := by
  have hi := GetIndex_xyz_in_range v.base hs hx hy hz hN
  have hlt : cellIndex v.base.order x y z s0 s1 s2 < v.array.length := by
    rw [hlen]; exact cellIndex_lt _ hx hy hz
  refine ⟨{ v with array := v.array.set (cellIndex v.base.order x y z s0 s1 s2) val },
    ?_, rfl, ?_, ?_⟩
  · unfold SetValue
    rw [hi]
    show (vset v.array _ val >>= _) = _
    unfold vset
    rw [if_pos hlt]
    rfl
  · unfold GetValue_xyz
    show (GetIndex_xyz v.base x y z >>= _) = _
    rw [hi]
    have hget : (v.array.set (cellIndex v.base.order x y z s0 s1 s2) val)[
        cellIndex v.base.order x y z s0 s1 s2]? = some val := List.getElem?_set_self hlt
    exact vget_of_getElem? hget
  · intro x1 y1 z1 hx1 hy1 hz1 hne
    have hi1 := GetIndex_xyz_in_range v.base hs hx1 hy1 hz1 hN
    have hidx : cellIndex v.base.order x y z s0 s1 s2
        ≠ cellIndex v.base.order x1 y1 z1 s0 s1 s2 := by
      intro he
      obtain ⟨e1, e2, e3⟩ := cellIndex_inj _ hx hy hz hx1 hy1 hz1 he
      exact hne (by rw [e1, e2, e3])
    unfold GetValue_xyz
    show (GetIndex_xyz v.base x1 y1 z1 >>= _) = (GetIndex_xyz v.base x1 y1 z1 >>= _)
    rw [hi1]
    have hget : (v.array.set (cellIndex v.base.order x y z s0 s1 s2) val)[
        cellIndex v.base.order x1 y1 z1 s0 s1 s2]?
        = v.array[cellIndex v.base.order x1 y1 z1 s0 s1 s2]? := List.getElem?_set_ne hidx
    show vget (v.array.set _ val) (cellIndex v.base.order x1 y1 z1 s0 s1 s2)
      = vget v.array (cellIndex v.base.order x1 y1 z1 s0 s1 s2)
    unfold vget
    rw [hget]

/-- C13 at a concrete input: the `ROW_MAJOR` buffer of shape (2,3,5), the value
7 stored at (1,2,4) and the cell (0,1,0) read back. -/
theorem SetValue_GetValue_witness :
    ∃ v1, SetValue 7 1 2 4 array235 = .ok v1 ∧ GetValue_xyz v1 1 2 4 = .ok 7 ∧
      GetValue_xyz v1 0 1 0 = GetValue_xyz array235 0 1 0 := by
  obtain ⟨v1, h1, -, h2, h3⟩ := SetValue_GetValue Int array235 7 1 2 4 2 3 5 rfl
    (by decide) (by decide) (by decide) (by decide) (by decide)
  exact ⟨v1, h1, h2, h3 0 1 0 (by decide) (by decide) (by decide) (by decide)⟩

/-- C14: in exact arithmetic `GetPosition(i, n, p) = i*p - (n/2)*p` with an exact
half, so `GetPosition(0, n, p) = -(n*p)/2` and `GetPosition(n, n, p) = (n*p)/2`;
and in every state reachable from a fresh bind by crop and merge calls,
`GetPositionX/Y/Z` and the vector form `GetPosition(indices)` (one to three
indices) apply it with the raw extent and raw spacing of the buffer's axis. -/
theorem GetPosition_raw :
    (∀ (i n : Nat) (p : ℚ),
      GetPosition i n p = (i : ℚ) * p - ((n : ℚ) / 2) * p ∧
      GetPosition 0 n p = -((n : ℚ) * p) / 2 ∧
      GetPosition n n p = ((n : ℚ) * p) / 2) ∧
    (∀ (data : G4VoxelData) (s : G4VoxelArrayBase) (x y z : Nat),
      Reachable data s → 3 ≤ data.spacing.length →
      GetPositionX s x = .ok (GetPosition x (data.shape.getD 0 0) (data.spacing.getD 0 0)) ∧
      GetPositionY s y = .ok (GetPosition y (data.shape.getD 1 0) (data.spacing.getD 1 0)) ∧
      GetPositionZ s z = .ok (GetPosition z (data.shape.getD 2 0) (data.spacing.getD 2 0)) ∧
      GetPosition_xyz s x y z
        = .ok [GetPosition x (data.shape.getD 0 0) (data.spacing.getD 0 0),
               GetPosition y (data.shape.getD 1 0) (data.spacing.getD 1 0),
               GetPosition z (data.shape.getD 2 0) (data.spacing.getD 2 0)]) ∧
    (∀ (data : G4VoxelData) (s : G4VoxelArrayBase) (indices : List Nat),
      Reachable data s → 3 ≤ data.spacing.length → indices.length ≤ 3 →
      GetPosition_vec s indices
        = .ok ((List.range indices.length).map fun k =>
            GetPosition (indices.getD k 0) (data.shape.getD k 0) (data.spacing.getD k 0))) := by
  have vec : ∀ (data : G4VoxelData) (s : G4VoxelArrayBase) (indices : List Nat),
      Reachable data s → 3 ≤ data.spacing.length → indices.length ≤ 3 →
      GetPosition_vec s indices
        = .ok ((List.range indices.length).map fun k =>
            GetPosition (indices.getD k 0) (data.shape.getD k 0)
              (data.spacing.getD k 0)) := by
    intro data s indices hr hsp hn
    obtain ⟨r1, r2, -⟩ := raw_of_ReachableVia hr
    have hI := Inv_of_ReachableVia hr
    rw [GetPosition_vec_eq s indices (by rw [hI.shape_len]; exact hn)
      (by rw [r2]; omega) (by omega), r1, r2]
  refine ⟨?_, ?_, vec⟩
  · intro i n p
    refine ⟨rfl, ?_, ?_⟩
    · unfold GetPosition
      push_cast
      ring
    · unfold GetPosition
      ring
  · intro data s x y z hr hsp
    obtain ⟨r1, r2, -⟩ := raw_of_ReachableVia hr
    have hI := Inv_of_ReachableVia hr
    have hsl : 3 ≤ s.shape.length := by rw [hI.shape_len]
    have hpl : 3 ≤ s.spacing.length := by rw [r2]; exact hsp
    refine ⟨?_, ?_, ?_, ?_⟩
    · unfold GetPositionX
      rw [vget_getD 0 (by omega : 0 < s.shape.length),
        vget_getD 0 (by omega : 0 < s.spacing.length), r1, r2]
      rfl
    · unfold GetPositionY
      rw [vget_getD 0 (by omega : 1 < s.shape.length),
        vget_getD 0 (by omega : 1 < s.spacing.length), r1, r2]
      rfl
    · unfold GetPositionZ
      rw [vget_getD 0 (by omega : 2 < s.shape.length),
        vget_getD 0 (by omega : 2 < s.spacing.length), r1, r2]
      rfl
    · unfold GetPosition_xyz
      rw [vec data s [x, y, z] hr hsp (by simp)]
      simp [List.range_succ]

/-- C14 at a concrete state: shape (10,10,10) with spacing (1,1,1) after
`CropAxis(0,4,0)` and `MergeAxis(2,0)`; index 3 on the `x` axis is at
`3 - 5 = -2`, computed with the raw extent 10. -/
theorem GetPosition_raw_witness :
    GetPositionX (viewOf data101010 true [0, 4, 0, 10, 0, 10] [4, 10, 10] true [2, 1, 1]
      [2, 10, 10]) 3 = .ok (GetPosition 3 10 1) ∧ GetPosition 3 10 1 = -2 := by
  constructor
  · exact (GetPosition_raw.2.1 data101010 _ 3 0 0
      (ReachableVia.step _ _ (Op.mergeAxis 2 0)
        (ReachableVia.step _ _ (Op.cropAxis 0 4 0)
          (ReachableVia.bind newBase _ (by decide) (by decide) rfl)
          trivial (by decide) rfl)
        trivial (by decide) rfl)
      (by decide)).1
  · norm_num [GetPosition]

/-- C15: on an accessor reachable from a fresh bind to a buffer with `ndims = 3`
and spacing `(p0,p1,p2)`, for block sizes `k0, k1, k2 > 0`, `Merge(k0,k1,k2)` has
a result in which `GetSpacing()` is `(p0*k0, p1*k1, p2*k2)` and `GetVoxelSize()`
is half of it on each axis; and while merge is inactive `GetSpacing()` is the
raw spacing and `GetVoxelSize()` half of it. -/
theorem GetSpacing_GetVoxelSize (data : G4VoxelData) (s : G4VoxelArrayBase)
    (k0 k1 k2 : Nat) (p0 p1 p2 : ℚ) (hr : Reachable data s) (hnd : data.ndims = 3)
    (hsp : data.spacing = [p0, p1, p2]) (h0 : 0 < k0) (h1 : 0 < k1) (h2 : 0 < k2) :
    (∃ s1, Merge k0 k1 k2 s = .ok s1 ∧ IsMerged s1 = true ∧
      GetSpacing s1 = .ok [p0 * k0, p1 * k1, p2 * k2] ∧
      GetVoxelSize s1 = .ok (p0 * k0 / 2, p1 * k1 / 2, p2 * k2 / 2)) ∧
    (IsMerged s = false →
      GetSpacing s = .ok [p0, p1, p2] ∧ GetVoxelSize s = .ok (p0 / 2, p1 / 2, p2 / 2)) := by
  obtain ⟨-, r2, -, -, r5⟩ := raw_of_ReachableVia hr
  have hI := Inv_of_ReachableVia hr
  have hs2 : s.spacing = [p0, p1, p2] := by rw [r2, hsp]
  have hn : s.ndims = 3 := by rw [r5, hnd]
  constructor
  · refine ⟨_, Merge_eq h0 h1 h2 hI.cs_len hI.ms_len hI.mz_len, rfl, ?_, ?_⟩
    · simp [GetSpacing, spacingLoop, vget, wrap, hs2, hn, bind, Except.bind]
    · simp [GetVoxelSize, vget, hs2, bind, Except.bind, pure, Except.pure]
      refine ⟨?_, ?_, ?_⟩ <;> ring
  · intro hm
    have hm2 : s.merged = false := hm
    constructor
    · simp [GetSpacing, hm2, hs2]
    · simp [GetVoxelSize, vget, hm2, hs2, bind, Except.bind, pure, Except.pure]

/-- C15 at a concrete input: shape (2,3,5) with spacing (1,1,1); after
`Merge(2,2,2)` the voxel size is (1,1,1). -/
theorem GetSpacing_GetVoxelSize_witness :
    ∃ s1, Merge 2 2 2 (viewOf (data235 .ROW_MAJOR) false [0, 2, 0, 3, 0, 5] [2, 3, 5] false
        [1, 1, 1] [2, 3, 5]) = .ok s1 ∧
      GetSpacing s1 = .ok [2, 2, 2] ∧ GetVoxelSize s1 = .ok (1, 1, 1) := by
  obtain ⟨⟨s1, e1, -, e2, e3⟩, -⟩ := GetSpacing_GetVoxelSize (data235 .ROW_MAJOR)
    (viewOf (data235 .ROW_MAJOR) false [0, 2, 0, 3, 0, 5] [2, 3, 5] false [1, 1, 1] [2, 3, 5])
    2 2 2 1 1 1 (ReachableVia.bind newBase _ (by decide) (by decide) rfl) rfl rfl
    (by decide) (by decide) (by decide)
  refine ⟨s1, e1, ?_, ?_⟩
  · rw [e2]; norm_num
  · rw [e3]; norm_num

/-- C16: a sequence of crop and merge calls that has a result leaves the raw
shape, the raw spacing, the storage order and the buffer contents as they
were, so `GetIndex` (all forms), `UnpackIndices` and `GetValue` return the same
before and after it, for every coordinate and flat index. -/
theorem crop_merge_frame (T : Type) (ops : List Op) (v v1 : G4VoxelArray T)
    (h : G4VoxelArray.runOps ops v = .ok v1) :
    v1.base.shape = v.base.shape ∧ v1.base.spacing = v.base.spacing ∧
    v1.base.order = v.base.order ∧ v1.array = v.array ∧
    (∀ indices shape, GetIndex v1.base indices shape = GetIndex v.base indices shape) ∧
    (∀ x y z, GetIndex_xyz v1.base x y z = GetIndex_xyz v.base x y z) ∧
    (∀ i, GetIndex_flat v1.base i = GetIndex_flat v.base i) ∧
    (∀ i, UnpackIndices v1.base i = UnpackIndices v.base i) ∧
    (∀ i, GetValue v1 i = GetValue v i) ∧
    (∀ x y z, GetValue_xyz v1 x y z = GetValue_xyz v x y z) := by
  unfold G4VoxelArray.runOps at h
  obtain ⟨b, hb, h⟩ := bind_ok h
  have hv := (Except.ok.inj h).symm
  subst hv
  have hraw : RawEq b v.base := runOps_raw ops hb
  refine ⟨hraw.1, hraw.2.1, hraw.2.2.1, rfl, fun i sh => GetIndex_congr hraw.2.2.1 i sh,
    fun x y z => GetIndex_xyz_congr hraw x y z, fun _ => rfl,
    fun i => UnpackIndices_congr hraw i, fun _ => rfl, ?_⟩
  intro x y z
  unfold GetValue_xyz
  show (GetIndex_xyz b x y z >>= _) = (GetIndex_xyz v.base x y z >>= _)
  rw [GetIndex_xyz_congr hraw x y z]
  rfl

/-- C16 at a concrete input: the buffer of shape (2,3,5) after `Crop(0,1,1,3,2,5)`,
`Merge(1,3,5)`, `Crop(false)` and `ClearMerge()`. -/
theorem crop_merge_frame_witness :
    ∃ v1, G4VoxelArray.runOps
        [Op.crop 0 1 1 3 2 5, Op.merge 1 3 5, Op.cropBool false, Op.clearMerge] array235
        = .ok v1 ∧
      GetIndex_xyz v1.base 1 2 4 = GetIndex_xyz array235.base 1 2 4 ∧
      GetValue_xyz v1 1 2 4 = GetValue_xyz array235 1 2 4 :=
  ⟨_, rfl,
    (crop_merge_frame Int
      [Op.crop 0 1 1 3 2 5, Op.merge 1 3 5, Op.cropBool false, Op.clearMerge]
      array235 _ rfl).2.2.2.2.2.1 1 2 4,
    (crop_merge_frame Int
      [Op.crop 0 1 1 3 2 5, Op.merge 1 3 5, Op.cropBool false, Op.clearMerge]
      array235 _ rfl).2.2.2.2.2.2.2.2.2 1 2 4⟩

/-- C17: binding a freshly constructed accessor to a buffer of shape `(s0,s1,s2)`
(`Init(data)`, or `SetData` on a new object) has a result with `IsCropped()` and
`IsMerged()` false, `GetCropLimit() = [0,s0,0,s1,0,s2]`, `GetMergeSize() = [1,1,1]`,
`GetShape() = (s0,s1,s2)`, `GetSpacing()` the buffer's spacing and the buffer's
storage order. -/
theorem fresh_bind_state (data : G4VoxelData) (s0 : G4VoxelArrayBase) (a b c : Nat)
    (hf : Fresh s0) (hs : data.shape = [a, b, c]) :
    (∃ s, Init_data data s0 = .ok s ∧ IsCropped s = false ∧ IsMerged s = false ∧
      GetCropLimit s = [0, a, 0, b, 0, c] ∧ GetMergeSize s = [1, 1, 1] ∧
      GetShape s = [a, b, c] ∧ GetSpacing s = .ok data.spacing ∧ s.order = data.order) ∧
    (∀ (T : Type) (elements old : List T),
      ∃ v, SetData data elements { base := s0, array := old } = .ok v ∧
        v.array = elements ∧ IsCropped v.base = false ∧ IsMerged v.base = false ∧
        GetCropLimit v.base = [0, a, 0, b, 0, c] ∧ GetMergeSize v.base = [1, 1, 1] ∧
        GetShape v.base = [a, b, c] ∧ GetSpacing v.base = .ok data.spacing ∧
        v.base.order = data.order) := by
  obtain ⟨-, -, hcl, -, hmz, -⟩ := hf
  have he := Init_data_appends data s0 a b c hs
  rw [hcl, hmz] at he
  have first : ∃ s, Init_data data s0 = .ok s ∧ IsCropped s = false ∧ IsMerged s = false ∧
      GetCropLimit s = [0, a, 0, b, 0, c] ∧ GetMergeSize s = [1, 1, 1] ∧
      GetShape s = [a, b, c] ∧ GetSpacing s = .ok data.spacing ∧ s.order = data.order :=
    ⟨_, he, rfl, rfl, rfl, rfl, rfl, rfl, rfl⟩
  refine ⟨first, ?_⟩
  intro T elements old
  obtain ⟨s, e, q1, q2, q3, q4, q5, q6, q7⟩ := first
  refine ⟨{ base := s, array := elements }, ?_, rfl, q1, q2, q3, q4, q5, q6, q7⟩
  unfold SetData
  show (Init_data data s0 >>= _) = _
  rw [e]
  rfl

/-- C17 at a concrete input: the buffer of shape (2,3,5) and a new object. -/
theorem fresh_bind_state_witness :
    ∃ s, Init_data (data235 .ROW_MAJOR) newBase = .ok s ∧
      GetCropLimit s = [0, 2, 0, 3, 0, 5] ∧ GetMergeSize s = [1, 1, 1] ∧
      GetShape s = [2, 3, 5] := by
  obtain ⟨⟨s, h1, -, -, h2, h3, h4, -⟩, -⟩ :=
    fresh_bind_state (data235 .ROW_MAJOR) newBase 2 3 5 (by decide) rfl
  exact ⟨s, h1, h2, h3, h4⟩

/-- C18: for a shape `(s0,s1,s2)` with `s0*s1*s2 < 2^32`, under either storage order,
`GetIndex(x,y,z)` at an in-range coordinate runs without any product or sum
leaving 32 bits, and its result is below `s0*s1*s2`; so `GetValue(x,y,z)` on a
buffer of `s0*s1*s2` elements reads an element of the buffer. -/
theorem GetIndex_in_bounds (T : Type) (v : G4VoxelArray T) (x y z s0 s1 s2 : Nat)
    (hs : v.base.shape = [s0, s1, s2]) (hN : s0 * s1 * s2 < 4294967296)
    (hx : x < s0) (hy : y < s1) (hz : z < s2) :
    ∃ index, GetIndexExact v.base [x, y, z] v.base.shape = some index ∧
      GetIndex_xyz v.base x y z = .ok index ∧ index < s0 * s1 * s2 ∧
      (v.array.length = s0 * s1 * s2 →
        ∃ t, v.array[index]? = some t ∧ GetValue_xyz v x y z = .ok t) := by
  have hlt := cellIndex_lt v.base.order hx hy hz
  have hi := GetIndex_xyz_in_range v.base hs hx hy hz hN
  refine ⟨cellIndex v.base.order x y z s0 s1 s2, ?_, hi, hlt, ?_⟩
  · rw [hs]
    exact GetIndexExact_three v.base hx hy hz hN
  · intro hlen
    have hlt2 : cellIndex v.base.order x y z s0 s1 s2 < v.array.length := by
      rw [hlen]; exact hlt
    refine ⟨v.array[cellIndex v.base.order x y z s0 s1 s2], List.getElem?_eq_getElem hlt2, ?_⟩
    unfold GetValue_xyz
    show (GetIndex_xyz v.base x y z >>= _) = _
    rw [hi]
    exact vget_of_getElem? (List.getElem?_eq_getElem hlt2)

/-- C18 at a concrete input: the `ROW_MAJOR` buffer of shape (2,3,5) and the last
cell (1,2,4). -/
theorem GetIndex_in_bounds_witness :
    ∃ index, GetIndexExact array235.base [1, 2, 4] array235.base.shape = some index ∧
      GetIndex_xyz array235.base 1 2 4 = .ok index ∧ index < 2 * 3 * 5 := by
  obtain ⟨index, h1, h2, h3, -⟩ := GetIndex_in_bounds Int array235 1 2 4 2 3 5 rfl
    (by decide) (by decide) (by decide) (by decide)
  exact ⟨index, h1, h2, h3⟩

/-- C19, as stated, fails for a shape whose `s0*s1` does not fit in 32 bits: with
the shape (65536, 65537, 1) the product wraps to 65536, and the in-range
coordinate (0,1,0), of flat index `0 + 65536*1 = 65536`, unpacks to (0,0,1). -/
theorem UnpackIndices_col_wraps :
    ¬ (∀ (s : G4VoxelArrayBase) (x y z s0 s1 s2 : Nat),
        s.order = .COLUMN_MAJOR → s.shape = [s0, s1, s2] →
        0 < s0 → 0 < s1 → 0 < s2 → x < s0 → y < s1 → z < s2 →
        UnpackIndices s (x + s0 * y + s0 * s1 * z) = .ok [x, y, z]) ∧
    UnpackIndices wideView 65536 = .ok [0, 0, 1] := by
  refine ⟨?_, by decide⟩
  intro h
  have := h wideView 0 1 0 65536 65537 1 rfl rfl (by decide) (by decide) (by decide)
    (by decide) (by decide) (by decide)
  revert this
  decide

/-- C19, amended: for a shape `(s0,s1,s2)` whose product `s0*s1` fits in 32 bits
(as it does whenever `s0*s1*s2 < 2^32` with positive extents), `UnpackIndices`
under `COLUMN_MAJOR` on a flat index `x + s0*y + s0*s1*z` that fits in 32 bits,
with `x < s0`, `y < s1`, `z < s2`, returns exactly `(x,y,z)`. -/
theorem UnpackIndices_col_inverts_row (s : G4VoxelArrayBase) (x y z s0 s1 s2 : Nat)
    (ho : s.order = .COLUMN_MAJOR) (hs : s.shape = [s0, s1, s2])
    (hx : x < s0) (hy : y < s1) (_hz : z < s2) (h32 : s0 * s1 < 4294967296)
    (_hi32 : x + s0 * y + s0 * s1 * z < 4294967296) :
    UnpackIndices s (x + s0 * y + s0 * s1 * z) = .ok [x, y, z] ∧
    cellIndex .ROW_MAJOR x y z s0 s1 s2 = x + s0 * y + s0 * s1 * z :=
  ⟨UnpackIndices_col s x y z s0 s1 s2 ho hs hx hy h32, rfl⟩

/-- C19, amended, at a concrete input: shape (2,3,5), coordinate (1,2,4), flat
index 29. -/
theorem UnpackIndices_col_inverts_row_witness :
    UnpackIndices (viewOf (data235 .COLUMN_MAJOR) false [0, 2, 0, 3, 0, 5] [2, 3, 5] false
      [1, 1, 1] [2, 3, 5]) (1 + 2 * 2 + 2 * 3 * 4) = .ok [1, 2, 4] :=
  (UnpackIndices_col_inverts_row _ 1 2 4 2 3 5 rfl rfl (by decide) (by decide) (by decide)
    (by decide) (by decide)).1

/-- C20 fails on the code: `Init()` extends `crop_limits` and `merge_size` with
`push_back`. An accessor bound to a buffer of shape (2,3,5) and then rebound
with `SetData` to one of shape (10,10,10) has twelve crop limits, the first six
those of the old buffer, and six block sizes. -/
theorem SetData_rebind_appends :
    ((SetData (data235 .ROW_MAJOR) array235.array newArray
        >>= SetData data101010 (List.replicate 1000 0)).map fun v => GetCropLimit v.base)
      = .ok [0, 2, 0, 3, 0, 5, 0, 10, 0, 10, 0, 10] ∧
    ((SetData (data235 .ROW_MAJOR) array235.array newArray
        >>= SetData data101010 (List.replicate 1000 0)).map fun v => GetMergeSize v.base)
      = .ok [1, 1, 1, 1, 1, 1] ∧
    ((SetData (data235 .ROW_MAJOR) array235.array newArray
        >>= SetData data101010 (List.replicate 1000 0)).map fun v => GetShape v.base)
      = .ok [10, 10, 10] := by
  refine ⟨by decide, by decide, by decide⟩

/-- C21 fails on the code at the stored value 0: the complex accessor tests
`val < 0` and sends 0 to the `+ step/2` branch, the real `RoundValue` tests
`val > 0` and sends 0 to the `- step/2` branch. With step 5 the complex
`GetRoundedValue` on the element `0 + 4i` is 0 and the real one on the value 0
is -5; the clamped forms with bounds [-10, 10] differ in the same way. -/
theorem GetRoundedValue_complex_differs_at_zero :
    zeroComplex.GetRoundedValue 0 (5, 0) = .ok 0 ∧
    GetRoundedValue zeroReal 0 5 = .ok (-5) ∧
    RoundValue (0 : ℚ) 5 = -5 ∧
    zeroComplex.GetRoundedValue_bounded 0 (-10, 0) (10, 0) (5, 0) = .ok 0 ∧
    GetRoundedValue_bounded zeroReal 0 (-10) 10 5 = .ok (-5) := by
  have hc : zeroComplex.GetRoundedValue 0 (5, 0) = .ok 0 := by
    have hg : zeroComplex.GetValue 0 = .ok 0 := rfl
    simp only [G4VoxelArrayComplex.GetRoundedValue, hg, bind, Except.bind, lt_irrefl,
      if_false, pure, Except.pure]
    rw [complex_round_zero_five]
  have hr : GetRoundedValue zeroReal 0 5 = .ok (-5) := by
    have hg : GetValue zeroReal 0 = .ok 0 := rfl
    unfold GetRoundedValue
    rw [hg]
    show Except.ok (RoundValue (0 : ℚ) 5) = _
    rw [RoundValue_zero_five]
  refine ⟨hc, hr, RoundValue_zero_five, ?_, ?_⟩
  · unfold G4VoxelArrayComplex.GetRoundedValue_bounded
    rw [hc]
    show Except.ok (if (if (0 : ℚ) < -10 then (-10 : ℚ) else 0) > 10 then (10 : ℚ)
      else (if (0 : ℚ) < -10 then (-10 : ℚ) else 0)) = _
    norm_num
  · have hg : GetValue zeroReal 0 = .ok 0 := rfl
    unfold GetRoundedValue_bounded
    rw [hg]
    show Except.ok (RoundValue_bounded (0 : ℚ) (-10) 10 5) = _
    unfold RoundValue_bounded
    rw [RoundValue_zero_five]
    norm_num

/-- C22: for every step `s > 0` and all values `a <= b` of a real-valued `T`,
`RoundValue(a, s) <= RoundValue(b, s)`, also when `a <= 0 < b`. -/
theorem RoundValue_mono (T : Type) [LinearOrderedField T] [FloorRing T]
    (a b step : T) (hs : 0 < step) (hab : a ≤ b) :
    RoundValue a step ≤ RoundValue b step := by
  unfold RoundValue
  by_cases ha : a > 0
  · have hb : b > 0 := lt_of_lt_of_le ha hab
    rw [if_pos ha, if_pos hb]
    apply mul_le_mul_of_nonneg_right _ (le_of_lt hs)
    have hq : (a + step / 2) / step ≤ (b + step / 2) / step :=
      div_le_div_of_nonneg_right (by linarith) (le_of_lt hs)
    exact_mod_cast Int.floor_le_floor hq
  · rw [if_neg ha]
    by_cases hb : b > 0
    · rw [if_pos hb]
      have h1 : (⌊(a - step / 2) / step⌋ : T) ≤ (a - step / 2) / step := Int.floor_le _
      have h2 : (a - step / 2) / step < 0 :=
        div_neg_of_neg_of_pos (by linarith [not_lt.mp ha]) hs
      have h3 : (⌊(a - step / 2) / step⌋ : T) * step ≤ 0 :=
        mul_nonpos_of_nonpos_of_nonneg (le_of_lt (lt_of_le_of_lt h1 h2)) (le_of_lt hs)
      have h4 : (0 : T) ≤ (b + step / 2) / step := div_nonneg (by linarith) (le_of_lt hs)
      have h5 : (0 : ℤ) ≤ ⌊(b + step / 2) / step⌋ := Int.floor_nonneg.mpr h4
      have h6 : (0 : T) ≤ (⌊(b + step / 2) / step⌋ : T) * step :=
        mul_nonneg (by exact_mod_cast h5) (le_of_lt hs)
      exact le_trans h3 h6
    · rw [if_neg hb]
      apply mul_le_mul_of_nonneg_right _ (le_of_lt hs)
      have hq : (a - step / 2) / step ≤ (b - step / 2) / step :=
        div_le_div_of_nonneg_right (by linarith) (le_of_lt hs)
      exact_mod_cast Int.floor_le_floor hq

/-- C22 at a concrete input across the sign change: -1 and 1 with step 5. -/
theorem RoundValue_mono_witness : RoundValue (-1 : ℚ) 5 ≤ RoundValue (1 : ℚ) 5 :=
  RoundValue_mono ℚ (-1) 1 5 (by norm_num) (by norm_num)

end G4Voxel
